import Mathlib

/-!
Verification development for the mokuro-reader volume archive codec,
synchronization reducers, pagination model and OCR editing state machine,
shallowly embedded from the Rust sources (src/models.rs, src/utils/zip.rs,
src/utils/db.rs, src/utils/hooks.rs, src/reader.rs).

Machine integers (u8, u16, u32, usize) are embedded as Nat; the embedded
arithmetic never reaches the wrap-around range on the inputs the theorems
quantify over, and Rust subtraction that could underflow is noted at the
definitions that translate it.  AttrValue (an interned string) is embedded
as String.  Floating point geometry is embedded over Rat, with the DOM
measured rectangle taken as an explicit input, following the design note
of the specification that on-screen rect measurement is an injected
parameter.
-/

namespace Mokuro

/-- MagnifierSettings (src/models.rs): independent numeric display
parameters; zoom and width and height are u16, radius is u8. -/
structure MagnifierSettings where
  zoom : Nat
  radius : Nat
  height : Nat
  width : Nat
deriving DecidableEq, Repr

/-- Default for MagnifierSettings (src/models.rs impl Default). -/
def MagnifierSettings.default : MagnifierSettings :=
  { zoom := 200, radius := 35, height := 350, width := 350 }

/-- Global Settings record (src/models.rs), singleton key in the global
table. -/
structure Settings where
  magnifier : MagnifierSettings
deriving DecidableEq, Repr

/-- ReaderState (src/models.rs mod reader_state). -/
structure ReaderState where
  single_page : Bool
  current_page : Nat
  first_page_is_cover : Bool
deriving DecidableEq, Repr

/-- Default ReaderState (src/models.rs impl Default). -/
def ReaderState.default : ReaderState :=
  { single_page := false, current_page := 0, first_page_is_cover := true }

/-- OcrBlock (src/models.rs): box_ is (left, top, right, bottom) in source
image pixel space, all u32. -/
structure OcrBlock where
  uuid : String
  box_ : Nat × Nat × Nat × Nat
  vertical : Bool
  font_size : Nat
  lines : List String
deriving DecidableEq, Repr

/-- PageOcr (src/models.rs): one row per (volume, page). -/
structure PageOcr where
  img_width : Nat
  img_height : Nat
  blocks : List OcrBlock
deriving DecidableEq, Repr

/-- PageImage (src/models.rs): an opaque binary blob plus a filename,
embedded as the byte list it wraps. -/
structure PageImage where
  name : String
  data : List Nat
deriving DecidableEq, Repr

/-- VolumeMetadata (src/models.rs).  The f64 field line_height carries no
algorithmic content for the claims and floating point is outside the
embedding, so it is omitted; every other field is kept. -/
structure VolumeMetadata where
  id : Nat
  version : String
  created_at : String
  modified_at : String
  series : String
  title : String
  volume : String
  volume_uuid : String
  pages : List (String × String)
  cover : Option String
  hide_sidebar : Bool
  magnifier : MagnifierSettings
  reader_state : ReaderState
deriving DecidableEq, Repr

/-- VolumeMetadata::cover (src/models.rs): the stored override if set,
else the name of the first page.  The Rust indexing pages[0] panics on an
empty pages list; none embeds that panic. -/
def VolumeMetadata.coverName (v : VolumeMetadata) : Option String :=
  match v.cover with
  | some page => some page
  | none =>
    match v.pages with
    | [] => none
    | pr :: _ => some pr.1

/-- The increment computed by the match inside VolumeMetadata::page_forward
(src/models.rs).  The Rust arm guards compute len - 1 and len - 2 in usize;
for the nonempty page lists the theorems quantify over these never
underflow, and Nat truncated subtraction agrees with them there. -/
def VolumeMetadata.forwardIncrement (v : VolumeMetadata) : Nat :=
  let p := v.reader_state.current_page
  let len := v.pages.length
  if p ≥ len - 1 then 0
  else if p = len - 2 then 1
  else if v.reader_state.first_page_is_cover ∧ p % 2 = 0 then 1
  else if v.reader_state.single_page then 1
  else 2

/-- VolumeMetadata::page_forward (src/models.rs). -/
def VolumeMetadata.page_forward (v : VolumeMetadata) : VolumeMetadata :=
  { v with reader_state :=
      { v.reader_state with
          current_page := v.reader_state.current_page + v.forwardIncrement } }

/-- The decrement computed by the match inside VolumeMetadata::page_backward
(src/models.rs). -/
def VolumeMetadata.backwardDecrement (v : VolumeMetadata) : Nat :=
  let p := v.reader_state.current_page
  if p = 0 then 0
  else if p = 1 then 1
  else if v.reader_state.single_page then 1
  else if v.reader_state.first_page_is_cover ∧ p % 2 = 0 then 1
  else 2

/-- VolumeMetadata::page_backward (src/models.rs).  The Rust subtraction is
usize; the decrement never exceeds current_page (proved below), so Nat
truncated subtraction is exact. -/
def VolumeMetadata.page_backward (v : VolumeMetadata) : VolumeMetadata :=
  { v with reader_state :=
      { v.reader_state with
          current_page := v.reader_state.current_page - v.backwardDecrement } }

/-- VolumeMetadata::select_pages (src/models.rs): bounds-checked lookup of
the one or two displayed page names. -/
def VolumeMetadata.select_pages (v : VolumeMetadata) :
    Option String × Option String :=
  let get_page := fun (i : Nat) => (v.pages[i]?).map Prod.fst
  let s := v.reader_state
  if s.single_page ∨ (s.current_page = 0 ∧ s.first_page_is_cover) then
    (get_page s.current_page, none)
  else
    (get_page s.current_page, get_page (s.current_page + 1))

/-- Drag session state (src/reader.rs mod drag): screen coordinates are
i32, embedded as Int. -/
structure Drag where
  start_x : Int
  start_y : Int
  pos_x : Int
  pos_y : Int
  dirty : Bool
deriving DecidableEq, Repr

/-- Drag::new (src/reader.rs): mouse-down records the start point with a
clean dirty flag. -/
def Drag.new (x y : Int) : Drag :=
  { start_x := x, start_y := y, pos_x := x, pos_y := y, dirty := false }

/-- Drag::move_to (src/reader.rs): the session becomes dirty once the
cursor strays more than 2 pixels from the start point along either axis,
and stays dirty afterwards. -/
def Drag.move_to (d : Drag) (x y : Int) : Drag :=
  { start_x := d.start_x, start_y := d.start_y, pos_x := x, pos_y := y,
    dirty := d.dirty || decide ((d.start_x - x).natAbs > 2)
                     || decide ((d.start_y - y).natAbs > 2) }

/-- Drag::delta_x (src/reader.rs). -/
def Drag.delta_x (d : Drag) : Int := d.pos_x - d.start_x

/-- Drag::delta_y (src/reader.rs). -/
def Drag.delta_y (d : Drag) : Int := d.pos_y - d.start_y

/-- Drag::left (src/reader.rs). -/
def Drag.leftEdge (d : Drag) : Int := min d.pos_x d.start_x

/-- Drag::top (src/reader.rs). -/
def Drag.topEdge (d : Drag) : Int := min d.pos_y d.start_y

/-- A mouse-down at (x, y) followed by the given mouse moves
(PageMessage::BeginDrag then repeated PageMessage::UpdateDrag in
src/reader.rs). -/
def dragSession (x y : Int) (moves : List (Int × Int)) : Drag :=
  moves.foldl (fun d m => d.move_to m.1 m.2) (Drag.new x y)

/-- The Rust saturating cast f64 as u32, over exact Rat arithmetic:
truncation toward zero clamped to the u32 range. -/
def ratToU32 (q : Rat) : Nat := min (max q.floor 0).toNat 4294967295

/-- The same saturating cast applied to an already integral value. -/
def intToU32 (i : Int) : Nat := min (max i 0).toNat 4294967295

/-- Rust f64::round over Rat: round half away from zero. -/
def ratRound (q : Rat) : Int :=
  if q < 0 then -((-q + 1/2).floor) else (q + 1/2).floor

/-- The rendered page rectangle (bbox.rect in src/reader.rs), an injected
measurement of the page img element. -/
structure Rect where
  left : Rat
  top : Rat
  height : Rat
deriving DecidableEq, Repr

/-- BoundingBox (src/reader.rs): the rendered rect of the page image. -/
structure BoundingBox where
  rect : Rect
deriving DecidableEq, Repr

/-- OcrBlock::new (src/models.rs): the uuid comes from an external
time-ordered generator and is taken as an input; the four f64 coordinates
are cast to u32 with the Rust saturating cast. -/
def OcrBlock.new (uuid : String) (top left bottom right : Rat)
    (font_size : Nat) (vertical : Bool) : OcrBlock :=
  { uuid := uuid,
    box_ := (ratToU32 left, ratToU32 top, ratToU32 right, ratToU32 bottom),
    vertical := vertical, font_size := font_size, lines := [] }

/-- create_block (src/reader.rs): build a new OcrBlock from a finished
drag rectangle, clamped to a minimum size of 26 image pixels, vertical
exactly when the drag moved leftward. -/
def create_block (uuid : String) (drag : Drag) (bbox : BoundingBox)
    (scale : Rat) : OcrBlock :=
  let clamp : Rat := 26
  let font_size : Nat := 20
  let drag_top : Rat := (drag.topEdge : Rat)
  let drag_left : Rat := (drag.leftEdge : Rat)
  let drag_width : Rat := (drag.delta_x.natAbs : Rat)
  let drag_height : Rat := (drag.delta_y.natAbs : Rat)
  let left := (drag_left - bbox.rect.left) * scale
  let right := max (drag_width * scale) clamp + left
  let top := (drag_top - bbox.rect.top) * scale
  let bottom := max (drag_height * scale) clamp + top
  let vertical := decide (drag.delta_x < 0)
  OcrBlock.new uuid top left bottom right font_size vertical

/-- The drag-relevant state of the Page component (src/reader.rs struct
Page): its PageOcr working copy and the optional live drag session.  The
object-url fields hold browser resources and carry no algorithmic
content. -/
structure PageComponent where
  ocr : PageOcr
  drag : Option Drag
deriving DecidableEq, Repr

/-- Page::scale (src/reader.rs): stored image height over rendered page
height. -/
def PageComponent.scale (p : PageComponent) (bbox : BoundingBox) : Rat :=
  (p.ocr.img_height : Rat) / bbox.rect.height

/-- The PageMessage variants of src/reader.rs that drive the OCR editing
state machine. -/
inductive PageMessage where
  | DeleteBlock (uuid : String)
  | UpdateBlock (block : OcrBlock)
  | BeginDrag (x y : Int)
  | UpdateDrag (x y : Int)
  | EndDrag

/-- Page::update (src/reader.rs) on the messages above.  The result is
none exactly when the Rust code panics (the .unwrap() on a missing block
uuid); otherwise it carries the new component state together with the
PageOcr value passed to the scheduled commit_ocr future, if one was
scheduled.  For EndDrag, uuid is the externally generated identifier of a
newly created block. -/
def PageComponent.update (uuid : String) (bbox : BoundingBox)
    (p : PageComponent) : PageMessage → Option (PageComponent × Option PageOcr)
  | PageMessage.DeleteBlock u =>
    (p.ocr.blocks.findIdx? (fun b => b.uuid = u)).map fun index =>
      let ocr := { p.ocr with blocks := p.ocr.blocks.eraseIdx index }
      ({ p with ocr := ocr }, some ocr)
  | PageMessage.UpdateBlock block =>
    (p.ocr.blocks.findIdx? (fun b => b.uuid = block.uuid)).map fun index =>
      let ocr := { p.ocr with blocks := p.ocr.blocks.set index block }
      ({ p with ocr := ocr }, some ocr)
  | PageMessage.BeginDrag x y =>
    some ({ p with drag := some (Drag.new x y) }, none)
  | PageMessage.UpdateDrag x y =>
    match p.drag with
    | some drag => some ({ p with drag := some (drag.move_to x y) }, none)
    | none => some (p, none)
  | PageMessage.EndDrag =>
    match (p.drag).filter Drag.dirty with
    | some drag =>
      let block := create_block uuid drag bbox (p.scale bbox)
      let ocr := { p.ocr with blocks := p.ocr.blocks ++ [block] }
      some ({ ocr := ocr, drag := none }, some ocr)
    | none => some ({ p with drag := none }, none)

/-- The rendered rectangle of a text block element as measured from the
DOM on mouse-up (src/reader.rs TextBlock::view): an injected input per the
design note on DOM-measured geometry. -/
structure DomRect where
  left : Rat
  top : Rat
  width : Rat
  height : Rat
deriving DecidableEq, Repr

/-- The box recomputation in the TextBlock mouse-up handler
(src/reader.rs TextBlock::view): convert the rendered rect back to image
pixel space through the active scale factor, rounding each f64 and casting
to u32. -/
def recompute_box (rect : DomRect) (bboxLeft bboxTop : Rat) (scale : Rat) :
    Nat × Nat × Nat × Nat :=
  let left := ratRound ((rect.left - bboxLeft) * scale)
  let right := ratRound (rect.width * scale) + left
  let top := ratRound ((rect.top - bboxTop) * scale)
  let bottom := ratRound (rect.height * scale) + top
  (intToU32 left, intToU32 top, intToU32 right, intToU32 bottom)

/-- The commit decision of the TextBlock mouse-up handler (src/reader.rs
TextBlock::view): emit commit_block with the recomputed box exactly when
it differs from the stored box. -/
def TextBlock.mouseUp (rect : DomRect) (bboxLeft bboxTop : Rat)
    (scale : Rat) (block : OcrBlock) : Option OcrBlock :=
  let box_ := recompute_box rect bboxLeft bboxTop scale
  if box_ ≠ block.box_ then some { block with box_ := box_ } else none

/-- The mokuro IndexedDB (src/utils/db.rs create_database): the volumes
table is keyed by an auto-incremented positive integer (next_id holds the
next key the generator will issue), and the pages and ocr tables are keyed
by the composite (volume_id, page_name).  The singleton global table is
passed around as a Settings value where needed. -/
structure Database where
  next_id : Nat
  volumes : Nat → Option VolumeMetadata
  pages : Nat × String → Option PageImage
  ocr : Nat × String → Option PageOcr

/-- get_volume (src/utils/db.rs): point lookup in the volumes table; a
missing key makes the deserialization fail, returned as an error (none). -/
def get_volume (db : Database) (volume_id : Nat) : Option VolumeMetadata :=
  db.volumes volume_id

/-- The loop body of delete_volume (src/utils/db.rs): for every
(page_name, _) pair of the stored volume, delete the pages row and the ocr
row keyed (volume_id, page_name), in declared order, inside the open
transaction. -/
def deletePageRows (volume_id : Nat) :
    List (String × String) → Database → Database
  | [], db => db
  | (page_name, _) :: rest, db =>
    deletePageRows volume_id rest
      { db with
        pages := fun k =>
          if k = (volume_id, page_name) then none else db.pages k,
        ocr := fun k =>
          if k = (volume_id, page_name) then none else db.ocr k }

/-- delete_volume (src/utils/db.rs): load the volume row (an error on a
nonexistent id, before any deletion), then within one transaction delete
every (volume_id, page_name) pages and ocr row and finally the volume row
itself. -/
def delete_volume (db : Database) (volume_id : Nat) : Option Database :=
  (get_volume db volume_id).map fun volume =>
    let db2 := deletePageRows volume_id volume.pages db
    { db2 with
      volumes := fun k => if k = volume_id then none else db2.volumes k }

/-- VolumeState (src/utils/hooks.rs mod volume): the working copy held by
the volume reducer. -/
structure VolumeState where
  data : VolumeMetadata
deriving DecidableEq, Repr

/-- VolumeAction (src/utils/hooks.rs mod volume). -/
inductive VolumeAction where
  | Set (v : VolumeMetadata)
  | NextPage
  | PrevPage

/-- Reducible::reduce for VolumeState (src/utils/hooks.rs mod volume):
every mutation applies synchronously to the held record; persistence is
never inline here. -/
def VolumeState.reduce (s : VolumeState) : VolumeAction → VolumeState
  | VolumeAction.Set v => { data := v }
  | VolumeAction.NextPage => { data := s.data.page_forward }
  | VolumeAction.PrevPage => { data := s.data.page_backward }

/-- One synchronization pass of the use_volume_reducer future
(src/utils/hooks.rs mod volume), run after every change of the held
reducer state.  Given the volumes store, the requested key, the held
record r and the sentinel, it returns the new sentinel, the list of
put_volume writes issued by this pass, and the volume dispatched through a
Set action when the pass was a load.  A held id of 0 marks the unassigned
default state; store keys are positive.  When the held key matches and the
sentinel is clear, the pass only sets the sentinel (the render after a
load); when the sentinel is already set it puts the held record.  A failed
load leaves the sentinel untouched and dispatches nothing. -/
def volumePass (store : Nat → Option VolumeMetadata) (volume_id : Nat)
    (r : VolumeMetadata) (sentinel : Bool) :
    Bool × List VolumeMetadata × Option VolumeMetadata :=
  if r.id = volume_id then
    if sentinel then (sentinel, [r], none)
    else (true, [], none)
  else
    match store volume_id with
    | some volume => (false, [], some volume)
    | none => (sentinel, [], none)

/-- The put_volume writes issued by running one synchronization pass per
reducer state change, in order, threading the sentinel between passes. -/
def volumeWrites (store : Nat → Option VolumeMetadata) (volume_id : Nat)
    (sentinel : Bool) : List VolumeMetadata → List VolumeMetadata
  | [] => []
  | r :: rest =>
    let step := volumePass store volume_id r sentinel
    step.2.1 ++ volumeWrites store volume_id step.1 rest

/-- PageState (src/utils/hooks.rs mod page): the key and PageOcr working
copy held by the page reducer.  The object-url fields hold browser
resources, take no part in the PartialEq used by the reducer, and are
omitted. -/
structure PageState where
  key_ : Nat × String
  ocr : PageOcr
deriving DecidableEq, Repr

/-- PageState::check_key (src/utils/hooks.rs mod page). -/
def PageState.check_key (s : PageState) (volume_id : Nat)
    (page_name : String) : Bool :=
  decide (s.key_.1 = volume_id) && decide (s.key_.2 = page_name)

/-- PageAction (src/utils/hooks.rs mod page). -/
inductive PageAction where
  | Set (volume_id : Nat) (page_name : String) (image : PageImage)
        (ocr : PageOcr)
  | DeleteBlock (uuid : String)
  | UpdateBlock (block : OcrBlock)

/-- Reducible::reduce for PageState (src/utils/hooks.rs mod page).  none
embeds the .unwrap() panic when no block carries the requested uuid;
DeleteBlock removes the first block found at that uuid and UpdateBlock
overwrites it in place. -/
def PageState.reduce (s : PageState) : PageAction → Option PageState
  | PageAction.Set volume_id page_name _image ocr =>
    some { key_ := (volume_id, page_name), ocr := ocr }
  | PageAction.DeleteBlock uuid =>
    (s.ocr.blocks.findIdx? (fun b => b.uuid = uuid)).map fun index =>
      { s with ocr := { s.ocr with blocks := s.ocr.blocks.eraseIdx index } }
  | PageAction.UpdateBlock block =>
    (s.ocr.blocks.findIdx? (fun b => b.uuid = block.uuid)).map fun index =>
      { s with ocr := { s.ocr with blocks := s.ocr.blocks.set index block } }

/-- One synchronization pass of the use_page_reducer future
(src/utils/hooks.rs mod page), the Page-OCR instance of the same sentinel
pattern as volumePass: returns the new sentinel, the put_ocr writes issued,
and the Set payload dispatched when the pass was a load.  get_page_and_ocr
converts the pages row without a typed check and fails on a missing ocr
row, so a load succeeds exactly when the ocr row is present. -/
def pagePass (pageStore : Nat × String → Option PageImage)
    (ocrStore : Nat × String → Option PageOcr)
    (volume_id : Nat) (page_name : String) (r : PageState) (sentinel : Bool) :
    Bool × List PageOcr × Option (PageImage × PageOcr) :=
  if r.check_key volume_id page_name then
    if sentinel then (sentinel, [r.ocr], none)
    else (true, [], none)
  else
    match ocrStore (volume_id, page_name) with
    | some ocr =>
      let image := (pageStore (volume_id, page_name)).getD ⟨"", []⟩
      (false, [], some (image, ocr))
    | none => (sentinel, [], none)

/-- The put_ocr writes issued by running one page synchronization pass per
reducer state change, in order, threading the sentinel between passes. -/
def pageWrites (pageStore : Nat × String → Option PageImage)
    (ocrStore : Nat × String → Option PageOcr)
    (volume_id : Nat) (page_name : String)
    (sentinel : Bool) : List PageState → List PageOcr
  | [] => []
  | r :: rest =>
    let step := pagePass pageStore ocrStore volume_id page_name r sentinel
    step.2.1 ++ pageWrites pageStore ocrStore volume_id page_name step.1 rest

/-- One named entry of the zip archive (src/utils/zip.rs).  Entries are
typed by what the writer serialized into them: the metadata JSON, raw
image bytes, PageOcr JSON, or the _ocr/ directory marker; reading an entry
of the wrong shape where JSON parsing is expected embeds the
serde_json failure. -/
inductive ZipEntry where
  | metadata (volume : VolumeMetadata)
  | image (data : List Nat)
  | ocrData (ocr : PageOcr)
  | directory
deriving DecidableEq, Repr

/-- An archive is its ordered list of named entries. -/
abbrev ZipArchive := List (String × ZipEntry)

/-- METADATA_FILE (src/utils/zip.rs). -/
def METADATA_FILE : String := "mokuro-metadata.json"

/-- Lookup of a named entry: the first entry carrying the name. -/
def zfind (archive : ZipArchive) (name : String) : Option ZipEntry :=
  match archive with
  | [] => none
  | (n, e) :: rest => if n = name then some e else zfind rest name

/-- The error cases of the import and export paths relevant here, from
AppError and InvalidMokuroFileError (src/errors.rs).  IndexPanic embeds a
Rust panic (indexing pages[0] of an empty pages list), which is not an
AppError. -/
inductive ImportError where
  | MissingFile (name : String)
  | ParseError
  | RexieError
  | IndexPanic
deriving DecidableEq, Repr

/-- Modelled from the spec: the file accessor of the JS-side Archive
wrapper (src/utils/archive.js, not among the Rust sources).  Per the spec
a required entry that is absent yields a missing-file error naming that
entry, matching the behavior of read_zipfile in src/utils/zip.rs, which
maps ZipError::FileNotFound to InvalidMokuroFileError::MissingFile(name). -/
def archiveFile (archive : ZipArchive) (name : String) :
    Except ImportError ZipEntry :=
  match zfind archive name with
  | some entry => Except.ok entry
  | none => Except.error (ImportError.MissingFile name)

/-- serde_json parse of the metadata entry into a VolumeMetadata. -/
def parseVolume : ZipEntry → Except ImportError VolumeMetadata
  | ZipEntry.metadata v => Except.ok v
  | _ => Except.error ImportError.ParseError

/-- Reading the raw bytes of an image entry. -/
def entryBytes : ZipEntry → Except ImportError (List Nat)
  | ZipEntry.image d => Except.ok d
  | _ => Except.error ImportError.ParseError

/-- serde_json parse of an ocr entry into a PageOcr. -/
def parseOcr : ZipEntry → Except ImportError PageOcr
  | ZipEntry.ocrData ocr => Except.ok ocr
  | _ => Except.error ImportError.ParseError

/-- The page loop of extract_ziparchive (src/utils/zip.rs lines 53-65):
for every declared (page_name, ocr_name) pair in order, read the page
bytes into a PageImage named page_name and parse the ocr entry, collecting
everything in memory before any store write. -/
def importPages (archive : ZipArchive) :
    List (String × String) →
    Except ImportError (List (String × PageImage × PageOcr))
  | [] => Except.ok []
  | (page_name, ocr_name) :: rest =>
    match archiveFile archive page_name with
    | Except.error e => Except.error e
    | Except.ok pageEntry =>
    match entryBytes pageEntry with
    | Except.error e => Except.error e
    | Except.ok image_data =>
    match archiveFile archive ocr_name with
    | Except.error e => Except.error e
    | Except.ok ocrEntry =>
    match parseOcr ocrEntry with
    | Except.error e => Except.error e
    | Except.ok page_ocr =>
    match importPages archive rest with
    | Except.error e => Except.error e
    | Except.ok tail =>
      Except.ok ((page_name, ⟨page_name, image_data⟩, page_ocr) :: tail)

/-- The read half of extract_ziparchive (src/utils/zip.rs lines 33-65):
parse the metadata entry, clear its id, overwrite its magnifier settings
from the global Settings, resolve and read the cover entry, then read
every declared page and ocr entry - all before the write transaction is
opened. -/
def importReadPhase (settings : Settings) (archive : ZipArchive) :
    Except ImportError
      (VolumeMetadata × String × List Nat × List (String × PageImage × PageOcr)) :=
  match archiveFile archive METADATA_FILE with
  | Except.error e => Except.error e
  | Except.ok metaEntry =>
  match parseVolume metaEntry with
  | Except.error e => Except.error e
  | Except.ok volume0 =>
  let volume := { volume0 with id := 0, magnifier := settings.magnifier }
  match volume.coverName with
  | none => Except.error ImportError.IndexPanic
  | some coverName =>
  match archiveFile archive coverName with
  | Except.error e => Except.error e
  | Except.ok coverEntry =>
  match entryBytes coverEntry with
  | Except.error e => Except.error e
  | Except.ok cover_data =>
  match importPages archive volume.pages with
  | Except.error e => Except.error e
  | Except.ok page_ocr_data => Except.ok (volume, coverName, cover_data, page_ocr_data)

/-- The add calls of the bulk write transaction (src/utils/zip.rs lines
74-79): IndexedDB add fails when the composite key already holds a row. -/
def insertRows (volume_id : Nat) :
    List (String × PageImage × PageOcr) → Database →
    Except ImportError Database
  | [], db => Except.ok db
  | (name, image, ocr) :: rest, db =>
    if (db.pages (volume_id, name)).isSome
        || (db.ocr (volume_id, name)).isSome then
      Except.error ImportError.RexieError
    else
      insertRows volume_id rest
        { db with
          pages := fun k =>
            if k = (volume_id, name) then some image else db.pages k,
          ocr := fun k =>
            if k = (volume_id, name) then some ocr else db.ocr k }

/-- The write transaction of extract_ziparchive (src/utils/zip.rs lines
67-80): put the volume row (the auto-increment generator issues the key,
which the id key path injects into the stored row), then add every page
and ocr row keyed (new id, page_name), then commit. -/
def importWritePhase (db : Database) (volume : VolumeMetadata)
    (page_ocr_data : List (String × PageImage × PageOcr)) :
    Except ImportError (Database × VolumeMetadata) :=
  let newId := db.next_id
  let volume2 := { volume with id := newId }
  let db2 : Database :=
    { db with
      next_id := db.next_id + 1,
      volumes := fun k => if k = newId then some volume2 else db.volumes k }
  match insertRows newId page_ocr_data db2 with
  | Except.error e => Except.error e
  | Except.ok db3 => Except.ok (db3, volume2)

/-- extract_ziparchive (src/utils/zip.rs): the read phase runs in full
before the write transaction is opened, so any failure - a read-phase
error or an aborted transaction - leaves the store exactly as it was.  The
result pairs the resulting store with the returned volume, cover name and
cover bytes. -/
def extract_ziparchive (db : Database) (settings : Settings)
    (archive : ZipArchive) :
    Database × Except ImportError (VolumeMetadata × String × List Nat) :=
  match importReadPhase settings archive with
  | Except.error e => (db, Except.error e)
  | Except.ok (volume, coverName, cover_data, page_ocr_data) =>
    match importWritePhase db volume page_ocr_data with
    | Except.error e => (db, Except.error e)
    | Except.ok (db2, volume2) => (db2, Except.ok (volume2, coverName, cover_data))

/-- The page loop of create_ziparchive (src/utils/zip.rs lines 104-114):
for every declared pair look the page blob and ocr row up by composite key
and write each as its own stored entry; a missing row fails the export. -/
def exportPages (db : Database) (volume_id : Nat) :
    List (String × String) → Option ZipArchive
  | [] => some []
  | (page_name, ocr_name) :: rest =>
    match db.pages (volume_id, page_name) with
    | none => none
    | some image =>
    match db.ocr (volume_id, page_name) with
    | none => none
    | some ocr =>
    match exportPages db volume_id rest with
    | none => none
    | some tail =>
      some ((page_name, ZipEntry.image image.data)
          :: (ocr_name, ZipEntry.ocrData ocr) :: tail)

/-- create_ziparchive (src/utils/zip.rs): load the volume row, serialize
it with its id cleared to 0 as the metadata entry, add the _ocr/ directory
marker, then write every page and ocr entry; the output file name is
derived from the volume title. -/
def create_ziparchive (db : Database) (volume_id : Nat) :
    Option (String × ZipArchive) :=
  match get_volume db volume_id with
  | none => none
  | some volume =>
  match exportPages db volume_id volume.pages with
  | none => none
  | some entries =>
    some (volume.title ++ ".mbz.zip",
      (METADATA_FILE, ZipEntry.metadata { volume with id := 0 })
        :: ("_ocr/", ZipEntry.directory) :: entries)

/-- The archive entry names declared by a pages list, in archive write
order: page name then ocr name for every pair. -/
def declaredNames : List (String × String) → List String
  | [] => []
  | pr :: rest => pr.1 :: pr.2 :: declaredNames rest

/-! Concrete records used by the witness and counterexample theorems. -/

/-- A sample volume shape shared by the concrete witnesses. -/
def sampleVolume (pages : List (String × String)) (rs : ReaderState) :
    VolumeMetadata :=
  { id := 1, version := "0.2.1", created_at := "2024-05-01",
    modified_at := "2024-05-02", series := "series", title := "title",
    volume := "1", volume_uuid := "uuid-1", pages := pages, cover := none,
    hide_sidebar := false, magnifier := MagnifierSettings.default,
    reader_state := rs }

/-- Five declared (page, ocr) pairs. -/
def pages5 : List (String × String) :=
  [("p1.png", "_ocr/p1.json"), ("p2.png", "_ocr/p2.json"),
   ("p3.png", "_ocr/p3.json"), ("p4.png", "_ocr/p4.json"),
   ("p5.png", "_ocr/p5.json")]

/-- A five page volume in two-page mode with the cover convention on. -/
def wvol5 : VolumeMetadata :=
  sampleVolume pages5
    { single_page := false, current_page := 0, first_page_is_cover := true }

/-- A one page volume with single_page off and the cover convention off. -/
def wvol1 : VolumeMetadata :=
  sampleVolume [("p1.png", "_ocr/p1.json")]
    { single_page := false, current_page := 0, first_page_is_cover := false }

/-- A sample OCR block. -/
def wBlock : OcrBlock :=
  { uuid := "block-1", box_ := (10, 20, 110, 220), vertical := true,
    font_size := 20, lines := ["line one", "line two"] }

/-- A second sample OCR block. -/
def wBlock2 : OcrBlock :=
  { uuid := "block-2", box_ := (300, 40, 340, 90), vertical := false,
    font_size := 16, lines := ["other"] }

/-- A sample PageOcr row holding the two blocks. -/
def wOcr : PageOcr :=
  { img_width := 800, img_height := 1200, blocks := [wBlock, wBlock2] }

/-- A sample page blob. -/
def wImage : PageImage := { name := "p1.png", data := [137, 80, 78, 71] }

/-- A store holding wvol1 under key 1 with its page and ocr rows. -/
def wdb : Database :=
  { next_id := 2,
    volumes := fun k => if k = 1 then some wvol1 else none,
    pages := fun k => if k = (1, "p1.png") then some wImage else none,
    ocr := fun k => if k = (1, "p1.png") then some wOcr else none }

/-- A volumes store holding wvol5 under key 1. -/
def wVolumeStore : Nat → Option VolumeMetadata :=
  fun k => if k = 1 then some wvol5 else none

/-- A pages store holding wImage under (1, p1.png). -/
def wPageStore : Nat × String → Option PageImage :=
  fun k => if k = (1, "p1.png") then some wImage else none

/-- An ocr store holding wOcr under (1, p1.png). -/
def wOcrStore : Nat × String → Option PageOcr :=
  fun k => if k = (1, "p1.png") then some wOcr else none

/-- The page reducer state after loading (1, p1.png). -/
def wPageState : PageState := { key_ := (1, "p1.png"), ocr := wOcr }

/-- The page reducer state after an edit that deleted the first block. -/
def wPageStateEdited : PageState :=
  { key_ := (1, "p1.png"),
    ocr := { img_width := 800, img_height := 1200, blocks := [wBlock2] } }

/-- A page component holding wOcr and a finished clean drag session:
mouse-down at the origin followed by two moves that stay within the two
pixel threshold. -/
def wPageComp : PageComponent :=
  { ocr := wOcr, drag := some (dragSession 0 0 [(1, 1), (2, -2)]) }

/-- A rendered page rectangle. -/
def wBBox : BoundingBox := { rect := { left := 0, top := 0, height := 600 } }

/-- A rendered block rectangle that maps back exactly onto the stored box
of wBlock at scale 1 (a plain click: the element did not move). -/
def wDomRect : DomRect := { left := 10, top := 20, width := 100, height := 200 }

/-- A stored volume whose per-volume magnifier settings were customized
away from the global default. -/
def cexVol : VolumeMetadata :=
  { sampleVolume [("p1.png", "_ocr/p1.json")] ReaderState.default with
      magnifier := { zoom := 300, radius := 50, height := 400, width := 400 } }

/-- A store holding cexVol under key 1 with its page and ocr rows. -/
def cexDb : Database :=
  { next_id := 2,
    volumes := fun k => if k = 1 then some cexVol else none,
    pages := fun k => if k = (1, "p1.png") then some wImage else none,
    ocr := fun k => if k = (1, "p1.png") then some wOcr else none }

/-- An empty store whose key generator will issue 1 next. -/
def emptyDb : Database :=
  { next_id := 1, volumes := fun _ => none, pages := fun _ => none,
    ocr := fun _ => none }

/-- Global settings holding the default magnifier parameters. -/
def defaultSettings : Settings := { magnifier := MagnifierSettings.default }

/-- Export a volume and re-import the produced archive into the target
store, returning the imported volume. -/
def roundtripVolume (src : Database) (volume_id : Nat) (target : Database)
    (settings : Settings) : Option VolumeMetadata :=
  match create_ziparchive src volume_id with
  | none => none
  | some (_, archive) =>
    match (extract_ziparchive target settings archive).2 with
    | Except.ok (v, _, _) => some v
    | Except.error _ => none

/-- An archive that declares one page but is missing its ocr entry. -/
def c2archive : ZipArchive :=
  [(METADATA_FILE, ZipEntry.metadata { cexVol with id := 0 }),
   ("p1.png", ZipEntry.image wImage.data)]

/-! Helper lemmas about the pagination model. -/

theorem page_forward_pages (v : VolumeMetadata) :
    (v.page_forward).pages = v.pages := rfl

theorem page_backward_pages (v : VolumeMetadata) :
    (v.page_backward).pages = v.pages := rfl

theorem page_forward_flags (v : VolumeMetadata) :
    (v.page_forward).reader_state.single_page = v.reader_state.single_page ∧
    (v.page_forward).reader_state.first_page_is_cover
      = v.reader_state.first_page_is_cover := ⟨rfl, rfl⟩

theorem backwardDecrement_le (v : VolumeMetadata) :
    v.backwardDecrement ≤ v.reader_state.current_page := by
  unfold VolumeMetadata.backwardDecrement
  dsimp only
  split_ifs <;> omega

theorem forward_cp_lt (v : VolumeMetadata)
    (h : v.reader_state.current_page < v.pages.length) :
    (v.page_forward).reader_state.current_page < v.pages.length := by
  have : v.reader_state.current_page + v.forwardIncrement < v.pages.length := by
    unfold VolumeMetadata.forwardIncrement
    dsimp only
    split_ifs <;> omega
  simpa [VolumeMetadata.page_forward] using this

theorem backward_cp_lt (v : VolumeMetadata)
    (h : v.reader_state.current_page < v.pages.length) :
    (v.page_backward).reader_state.current_page < v.pages.length := by
  have : v.reader_state.current_page - v.backwardDecrement < v.pages.length := by
    omega
  simpa [VolumeMetadata.page_backward] using this

/-- C5.  ReaderState invariant preservation: on every VolumeMetadata with a
nonempty pages list and 0 <= current_page < pages.len(), page_forward and
page_backward keep current_page inside [0, pages.len()) for every
combination of single_page and first_page_is_cover; page_forward never
advances past pages.len() - 1 and page_backward subtracts a decrement that
never exceeds current_page (so the usize subtraction never underflows). -/
theorem C5_reader_state_invariant (v : VolumeMetadata)
    (_hlen : 0 < v.pages.length)
    (hcp : v.reader_state.current_page < v.pages.length) :
    (v.page_forward).reader_state.current_page < v.pages.length ∧
    (v.page_backward).reader_state.current_page < v.pages.length ∧
    v.backwardDecrement ≤ v.reader_state.current_page :=
  ⟨forward_cp_lt v hcp, backward_cp_lt v hcp, backwardDecrement_le v⟩

/-- Witness for C5 at the concrete five page volume. -/
theorem C5_reader_state_invariant_witness :
    (wvol5.page_forward).reader_state.current_page < wvol5.pages.length ∧
    (wvol5.page_backward).reader_state.current_page < wvol5.pages.length ∧
    wvol5.backwardDecrement ≤ wvol5.reader_state.current_page :=
  C5_reader_state_invariant wvol5 (by decide) (by decide)

theorem forward_iterate_pages (w : VolumeMetadata) (n : Nat) :
    (VolumeMetadata.page_forward^[n] w).pages = w.pages := by
  induction n with
  | zero => rfl
  | succ n ih => rw [Function.iterate_succ_apply', page_forward_pages, ih]

theorem backward_iterate_pages (w : VolumeMetadata) (n : Nat) :
    (VolumeMetadata.page_backward^[n] w).pages = w.pages := by
  induction n with
  | zero => rfl
  | succ n ih => rw [Function.iterate_succ_apply', page_backward_pages, ih]

theorem getElem_isSome_iff {α : Type} (l : List α) (i : Nat) :
    (l[i]?).isSome = true ↔ i < l.length := by
  constructor
  · intro hs
    by_contra hle
    rw [List.getElem?_eq_none (by omega)] at hs
    simp at hs
  · intro h
    rw [List.getElem?_eq_getElem h]
    rfl

theorem forward_step (w : VolumeMetadata) (sp co : Bool) (p q : Nat)
    (hrs : w.reader_state =
      { single_page := sp, current_page := p, first_page_is_cover := co })
    (hl : w.pages.length = 5)
    (hq : p + (if 5 - 1 ≤ p then 0 else if p = 5 - 2 then 1
        else if co = true ∧ p % 2 = 0 then 1
        else if sp = true then 1 else 2) = q) :
    (w.page_forward).reader_state =
      { single_page := sp, current_page := q, first_page_is_cover := co } := by
  subst hq
  simp [VolumeMetadata.page_forward, VolumeMetadata.forwardIncrement, hrs, hl]

theorem forward_at_last (w : VolumeMetadata) (hl : w.pages.length = 5)
    (hc : w.reader_state.current_page = 4) :
    (w.page_forward).reader_state.current_page = 4 := by
  simp [VolumeMetadata.page_forward, VolumeMetadata.forwardIncrement, hl, hc]

theorem backward_iterate_cp_lt (w : VolumeMetadata)
    (h : w.reader_state.current_page < w.pages.length) (n : Nat) :
    (VolumeMetadata.page_backward^[n] w).reader_state.current_page
      < w.pages.length := by
  induction n with
  | zero => simpa using h
  | succ n ih =>
    rw [Function.iterate_succ_apply']
    have hp : (VolumeMetadata.page_backward^[n] w).pages = w.pages :=
      backward_iterate_pages w n
    have hlt := backward_cp_lt (VolumeMetadata.page_backward^[n] w)
      (by rw [hp]; exact ih)
    rwa [hp] at hlt

/-- C4.  Pagination boundary trace: on a five page volume with
single_page = false and first_page_is_cover = true starting at page 0,
repeated page_forward visits 0, 1, 3, 4 and then stays at 4, and repeated
page_backward from the last position only ever produces indices strictly
below 5 (indices are Nat, hence never below 0; the subtracted decrement
never exceeds the current page by backwardDecrement_le). -/
theorem C4_pagination_boundary_trace (v : VolumeMetadata)
    (hlen : v.pages.length = 5)
    (hrs : v.reader_state =
      { single_page := false, current_page := 0, first_page_is_cover := true }) :
    (v.page_forward).reader_state.current_page = 1 ∧
    (v.page_forward.page_forward).reader_state.current_page = 3 ∧
    (v.page_forward.page_forward.page_forward).reader_state.current_page = 4 ∧
    (∀ n : Nat,
      (VolumeMetadata.page_forward^[n]
        v.page_forward.page_forward.page_forward).reader_state.current_page = 4) ∧
    (∀ n : Nat,
      (VolumeMetadata.page_backward^[n]
        v.page_forward.page_forward.page_forward).reader_state.current_page < 5) := by
  have hl1 : (v.page_forward).pages.length = 5 := by
    rw [page_forward_pages]; exact hlen
  have hl2 : (v.page_forward.page_forward).pages.length = 5 := by
    rw [page_forward_pages]; exact hl1
  have hl3 : (v.page_forward.page_forward.page_forward).pages.length = 5 := by
    rw [page_forward_pages]; exact hl2
  have h1 : (v.page_forward).reader_state =
      { single_page := false, current_page := 1, first_page_is_cover := true } :=
    forward_step v false true 0 1 hrs hlen (by decide)
  have h2 : (v.page_forward.page_forward).reader_state =
      { single_page := false, current_page := 3, first_page_is_cover := true } :=
    forward_step v.page_forward false true 1 3 h1 hl1 (by decide)
  have h3 : (v.page_forward.page_forward.page_forward).reader_state =
      { single_page := false, current_page := 4, first_page_is_cover := true } :=
    forward_step v.page_forward.page_forward false true 3 4 h2 hl2 (by decide)
  refine ⟨by rw [h1], by rw [h2], by rw [h3], ?_, ?_⟩
  · intro n
    induction n with
    | zero => rw [Function.iterate_zero_apply, h3]
    | succ n ih =>
      rw [Function.iterate_succ_apply']
      exact forward_at_last _ (by rw [forward_iterate_pages]; exact hl3) ih
  · intro n
    have := backward_iterate_cp_lt v.page_forward.page_forward.page_forward
      (by simp [h3, hl3]) n
    rwa [hl3] at this

/-- Witness for C4 at the concrete five page volume. -/
theorem C4_pagination_boundary_trace_witness :
    (wvol5.page_forward).reader_state.current_page = 1 ∧
    (wvol5.page_forward.page_forward).reader_state.current_page = 3 ∧
    (wvol5.page_forward.page_forward.page_forward).reader_state.current_page = 4 ∧
    (∀ n : Nat,
      (VolumeMetadata.page_forward^[n]
        wvol5.page_forward.page_forward.page_forward).reader_state.current_page = 4) ∧
    (∀ n : Nat,
      (VolumeMetadata.page_backward^[n]
        wvol5.page_forward.page_forward.page_forward).reader_state.current_page < 5) :=
  C4_pagination_boundary_trace wvol5 (by decide) (by decide)

/-- C6.  Page selection: whenever single_page is set, or current_page is 0
with the cover convention on, select_pages returns only the bounds-checked
page at current_page with the secondary slot none; otherwise it returns
the pages at current_page and current_page + 1, the secondary slot being
some exactly when that next page exists; and a volume with exactly one
page has a none secondary slot regardless of the single_page flag. -/
theorem C6_select_pages_selection (v : VolumeMetadata) :
    ((v.reader_state.single_page = true ∨
        (v.reader_state.current_page = 0 ∧
         v.reader_state.first_page_is_cover = true)) →
      v.select_pages =
        ((v.pages[v.reader_state.current_page]?).map Prod.fst, none)) ∧
    ((v.reader_state.single_page = false ∧
        ¬(v.reader_state.current_page = 0 ∧
          v.reader_state.first_page_is_cover = true)) →
      v.select_pages =
        ((v.pages[v.reader_state.current_page]?).map Prod.fst,
         (v.pages[v.reader_state.current_page + 1]?).map Prod.fst) ∧
      ((v.select_pages).2.isSome ↔
        v.reader_state.current_page + 1 < v.pages.length)) ∧
    (v.pages.length = 1 → (v.select_pages).2 = none) := by
  refine ⟨?_, ?_, ?_⟩
  · intro h
    unfold VolumeMetadata.select_pages
    rw [if_pos h]
  · intro h
    have hcond : ¬(v.reader_state.single_page = true ∨
        (v.reader_state.current_page = 0 ∧
         v.reader_state.first_page_is_cover = true)) := by
      rintro (hs | hc)
      · rw [h.1] at hs; exact Bool.false_ne_true hs
      · exact h.2 hc
    constructor
    · unfold VolumeMetadata.select_pages
      rw [if_neg hcond]
    · unfold VolumeMetadata.select_pages
      rw [if_neg hcond]
      simp [Option.isSome_map', getElem_isSome_iff]
  · intro hl
    unfold VolumeMetadata.select_pages
    dsimp only
    split_ifs with h
    · rfl
    · have : v.pages[v.reader_state.current_page + 1]? = none :=
        List.getElem?_eq_none (by omega)
      simp [this]

/-- Witness for C6 at the concrete one page volume with single_page off. -/
theorem C6_select_pages_selection_witness :
    (wvol1.select_pages =
      ((wvol1.pages[wvol1.reader_state.current_page]?).map Prod.fst,
       (wvol1.pages[wvol1.reader_state.current_page + 1]?).map Prod.fst)) ∧
    (wvol1.select_pages).2 = none :=
  ⟨((C6_select_pages_selection wvol1).2.1 (by decide)).1,
   (C6_select_pages_selection wvol1).2.2 (by decide)⟩

/-- C10.  Totality of select_pages at the public interface: for every
VolumeMetadata, including reader states violating the pagination
invariant and an empty pages list, select_pages accesses the pages list
only through bounds-checked lookup - a slot is some only when its index
lies inside the pages list, and is none when its index is out of range. -/
theorem C10_select_pages_total (v : VolumeMetadata) :
    ((v.select_pages).1.isSome ↔
      v.reader_state.current_page < v.pages.length) ∧
    ((v.select_pages).2.isSome →
      v.reader_state.current_page + 1 < v.pages.length) ∧
    (v.pages.length ≤ v.reader_state.current_page →
      v.select_pages = (none, none)) ∧
    (∀ p, (v.select_pages).1 = some p →
      ∃ pr, v.pages[v.reader_state.current_page]? = some pr ∧ pr.1 = p) ∧
    (∀ p, (v.select_pages).2 = some p →
      ∃ pr, v.pages[v.reader_state.current_page + 1]? = some pr ∧ pr.1 = p) := by
  unfold VolumeMetadata.select_pages
  dsimp only
  split_ifs with h
  · refine ⟨by simp [Option.isSome_map', getElem_isSome_iff], by simp, ?_, ?_, ?_⟩
    · intro hle
      have : v.pages[v.reader_state.current_page]? = none :=
        List.getElem?_eq_none hle
      simp [this]
    · intro p hp
      rcases Option.map_eq_some'.mp hp with ⟨pr, hpr, hfst⟩
      exact ⟨pr, hpr, hfst⟩
    · intro p hp
      simp at hp
  · refine ⟨by simp [Option.isSome_map', getElem_isSome_iff], ?_, ?_, ?_, ?_⟩
    · intro hs
      simpa [Option.isSome_map', getElem_isSome_iff] using hs
    · intro hle
      have h1 : v.pages[v.reader_state.current_page]? = none :=
        List.getElem?_eq_none hle
      have h2 : v.pages[v.reader_state.current_page + 1]? = none :=
        List.getElem?_eq_none (by omega)
      simp [h1, h2]
    · intro p hp
      rcases Option.map_eq_some'.mp hp with ⟨pr, hpr, hfst⟩
      exact ⟨pr, hpr, hfst⟩
    · intro p hp
      rcases Option.map_eq_some'.mp hp with ⟨pr, hpr, hfst⟩
      exact ⟨pr, hpr, hfst⟩

/-- Witness for C10 at the empty volume (empty pages list, default reader
state). -/
theorem C10_select_pages_total_witness :
    ((sampleVolume [] ReaderState.default).select_pages = (none, none)) :=
  (C10_select_pages_total (sampleVolume [] ReaderState.default)).2.2.1 (by decide)

/-! Helper lemmas about the synchronization reducers. -/

theorem volumeWrites_all_match (store : Nat → Option VolumeMetadata)
    (volume_id : Nat) (states : List VolumeMetadata)
    (h : ∀ x ∈ states, x.id = volume_id) :
    volumeWrites store volume_id true states = states := by
  induction states with
  | nil => rfl
  | cons r rest ih =>
    have hr : r.id = volume_id := h r (by simp)
    have ih2 := ih (fun x hx => h x (by simp [hx]))
    simp [volumeWrites, volumePass, hr, ih2]

theorem pageWrites_all_match (pageStore : Nat × String → Option PageImage)
    (ocrStore : Nat × String → Option PageOcr)
    (volume_id : Nat) (page_name : String) (states : List PageState)
    (h : ∀ x ∈ states, x.check_key volume_id page_name = true) :
    pageWrites pageStore ocrStore volume_id page_name true states
      = states.map PageState.ocr := by
  induction states with
  | nil => rfl
  | cons r rest ih =>
    have hr : r.check_key volume_id page_name = true := h r (by simp)
    have ih2 := ih (fun x hx => h x (by simp [hx]))
    simp [pageWrites, pagePass, hr, ih2]

/-- C3.  Sentinel correctness of the synchronization reducer, for both the
Volume and the Page-OCR instance: a load resets the sentinel to false and
issues no write; the first synchronization pass after a load (held key
matching) issues no write and only sets the sentinel; a pass with the
sentinel already set issues exactly one put of the currently held record;
hence a load followed by state changes whose keys match issues exactly one
eventual write per state change carrying that state, and in particular a
load followed by a single re-render issues zero writes, and an edit
issues exactly one write of the edited value, never the load value. -/
theorem C3_sentinel_correctness :
    (∀ (store : Nat → Option VolumeMetadata) (volume_id : Nat)
       (r v : VolumeMetadata) (s : Bool),
      (r.id ≠ volume_id → store volume_id = some v →
        volumePass store volume_id r s = (false, [], some v)) ∧
      (r.id = volume_id →
        volumePass store volume_id r false = (true, [], none)) ∧
      (r.id = volume_id →
        volumePass store volume_id r true = (true, [r], none))) ∧
    (∀ (store : Nat → Option VolumeMetadata) (volume_id : Nat)
       (r : VolumeMetadata) (states : List VolumeMetadata),
      r.id = volume_id → (∀ x ∈ states, x.id = volume_id) →
      volumeWrites store volume_id false (r :: states) = states) ∧
    (∀ (pageStore : Nat × String → Option PageImage)
       (ocrStore : Nat × String → Option PageOcr)
       (volume_id : Nat) (page_name : String) (r : PageState)
       (ocr : PageOcr) (s : Bool),
      (r.check_key volume_id page_name = false →
        ocrStore (volume_id, page_name) = some ocr →
        pagePass pageStore ocrStore volume_id page_name r s =
          (false, [],
           some ((pageStore (volume_id, page_name)).getD ⟨"", []⟩, ocr))) ∧
      (r.check_key volume_id page_name = true →
        pagePass pageStore ocrStore volume_id page_name r false =
          (true, [], none)) ∧
      (r.check_key volume_id page_name = true →
        pagePass pageStore ocrStore volume_id page_name r true =
          (true, [r.ocr], none))) ∧
    (∀ (pageStore : Nat × String → Option PageImage)
       (ocrStore : Nat × String → Option PageOcr)
       (volume_id : Nat) (page_name : String) (r : PageState)
       (states : List PageState),
      r.check_key volume_id page_name = true →
      (∀ x ∈ states, x.check_key volume_id page_name = true) →
      pageWrites pageStore ocrStore volume_id page_name false (r :: states)
        = states.map PageState.ocr) := by
  refine ⟨?_, ?_, ?_, ?_⟩
  · intro store volume_id r v s
    refine ⟨?_, ?_, ?_⟩
    · intro hne hsome
      simp [volumePass, hne, hsome]
    · intro heq
      simp [volumePass, heq]
    · intro heq
      simp [volumePass, heq]
  · intro store volume_id r states hr hall
    simp only [volumeWrites, volumePass, if_pos hr, if_neg (Bool.false_ne_true)]
    rw [volumeWrites_all_match store volume_id states hall]
    rfl
  · intro pageStore ocrStore volume_id page_name r ocr s
    refine ⟨?_, ?_, ?_⟩
    · intro hne hsome
      simp [pagePass, hne, hsome]
    · intro heq
      simp [pagePass, heq]
    · intro heq
      simp [pagePass, heq]
  · intro pageStore ocrStore volume_id page_name r states hr hall
    simp only [pageWrites, pagePass, hr, if_true, if_neg (Bool.false_ne_true)]
    rw [pageWrites_all_match pageStore ocrStore volume_id page_name states hall]
    rfl

/-- Witness for C3: loading then a lone re-render writes nothing; one edit
writes exactly the edited value, for both reducer instances. -/
theorem C3_sentinel_correctness_witness :
    volumeWrites wVolumeStore 1 false [wvol5] = [] ∧
    volumeWrites wVolumeStore 1 false [wvol5, wvol5.page_forward]
      = [wvol5.page_forward] ∧
    pageWrites wPageStore wOcrStore 1 "p1.png" false [wPageState] = [] ∧
    pageWrites wPageStore wOcrStore 1 "p1.png" false
      [wPageState, wPageStateEdited] = [wPageStateEdited.ocr] :=
  ⟨C3_sentinel_correctness.2.1 wVolumeStore 1 wvol5 [] (by decide) (by simp),
   C3_sentinel_correctness.2.1 wVolumeStore 1 wvol5 [wvol5.page_forward]
     (by decide) (by intro x hx; simp at hx; subst hx; decide),
   C3_sentinel_correctness.2.2.2 wPageStore wOcrStore 1 "p1.png" wPageState []
     (by decide) (by simp),
   C3_sentinel_correctness.2.2.2 wPageStore wOcrStore 1 "p1.png" wPageState
     [wPageStateEdited] (by decide)
     (by intro x hx; simp at hx; subst hx; decide)⟩

/-! Helper lemmas about finding, erasing and overwriting blocks by uuid. -/

theorem findIdx_uuid_none (l : List OcrBlock) (u : String)
    (h : ∀ b ∈ l, b.uuid ≠ u) :
    l.findIdx? (fun b => b.uuid = u) = none := by
  induction l with
  | nil => rfl
  | cons a l ih =>
    have ha : a.uuid ≠ u := h a (by simp)
    rw [List.findIdx?_cons, if_neg (by simp [ha]), List.findIdx?_succ,
      ih (fun b hb => h b (by simp [hb]))]
    rfl

theorem filter_uuid_eq_self (l : List OcrBlock) (u : String)
    (h : ∀ b ∈ l, b.uuid ≠ u) :
    l.filter (fun x => decide (x.uuid ≠ u)) = l :=
  List.filter_eq_self.mpr (fun x hx => by simp [h x hx])

theorem map_uuid_eq_self (l : List OcrBlock) (u : String) (nb : OcrBlock)
    (h : ∀ b ∈ l, b.uuid ≠ u) :
    l.map (fun x => if x.uuid = u then nb else x) = l := by
  calc l.map (fun x => if x.uuid = u then nb else x)
      = l.map id := List.map_congr_left (fun x hx => by simp [h x hx])
    _ = l := List.map_id l

theorem head_uuid_notin_tail (a : OcrBlock) (l : List OcrBlock) (u : String)
    (hnd : ((a :: l).map OcrBlock.uuid).Nodup) (hb : a.uuid = u) :
    ∀ x ∈ l, x.uuid ≠ u := by
  intro x hx hxx
  have hmem : a.uuid ∈ l.map OcrBlock.uuid := by
    rw [hb, ← hxx]
    exact List.mem_map_of_mem _ hx
  rw [List.map_cons] at hnd
  exact (List.nodup_cons.mp hnd).1 hmem

theorem findIdx_erase_filter (l : List OcrBlock) (u : String)
    (hnd : (l.map OcrBlock.uuid).Nodup) (b : OcrBlock) (hb : b ∈ l)
    (hu : b.uuid = u) :
    ∃ i, l.findIdx? (fun x => x.uuid = u) = some i ∧
      l.eraseIdx i = l.filter (fun x => decide (x.uuid ≠ u)) := by
  induction l with
  | nil => cases hb
  | cons a l ih =>
    rcases List.mem_cons.mp hb with rfl | hb2
    · refine ⟨0, ?_, ?_⟩
      · rw [List.findIdx?_cons, if_pos (by simp [hu])]
      · have hnotin := head_uuid_notin_tail b l u hnd hu
        rw [List.eraseIdx_cons_zero, List.filter_cons,
          if_neg (by simp [hu]), filter_uuid_eq_self l u hnotin]
    · have hnd2 : (l.map OcrBlock.uuid).Nodup := by
        rw [List.map_cons] at hnd
        exact (List.nodup_cons.mp hnd).2
      have ha : a.uuid ≠ u := by
        intro hau
        exact head_uuid_notin_tail a l u hnd hau b hb2 hu
      obtain ⟨i, hfind, herase⟩ := ih hnd2 hb2
      refine ⟨i + 1, ?_, ?_⟩
      · rw [List.findIdx?_cons, if_neg (by simp [ha]), List.findIdx?_succ,
          hfind]
        rfl
      · rw [List.eraseIdx_cons_succ, herase, List.filter_cons,
          if_pos (by simp [ha])]

theorem findIdx_set_map (l : List OcrBlock) (u : String)
    (hnd : (l.map OcrBlock.uuid).Nodup) (b : OcrBlock) (hb : b ∈ l)
    (hu : b.uuid = u) (nb : OcrBlock) :
    ∃ i, l.findIdx? (fun x => x.uuid = u) = some i ∧
      l.set i nb = l.map (fun x => if x.uuid = u then nb else x) := by
  induction l with
  | nil => cases hb
  | cons a l ih =>
    rcases List.mem_cons.mp hb with rfl | hb2
    · refine ⟨0, ?_, ?_⟩
      · rw [List.findIdx?_cons, if_pos (by simp [hu])]
      · have hnotin := head_uuid_notin_tail b l u hnd hu
        rw [List.set_cons_zero, List.map_cons, if_pos hu,
          map_uuid_eq_self l u nb hnotin]
    · have hnd2 : (l.map OcrBlock.uuid).Nodup := by
        rw [List.map_cons] at hnd
        exact (List.nodup_cons.mp hnd).2
      have ha : a.uuid ≠ u := by
        intro hau
        exact head_uuid_notin_tail a l u hnd hau b hb2 hu
      obtain ⟨i, hfind, hset⟩ := ih hnd2 hb2
      refine ⟨i + 1, ?_, ?_⟩
      · rw [List.findIdx?_cons, if_neg (by simp [ha]), List.findIdx?_succ,
          hfind]
        rfl
      · rw [List.set_cons_succ, hset, List.map_cons, if_neg ha]

/-- C9.  Missing-block fatality and exactness: in both the page reducer
(src/utils/hooks.rs PageState) and the Page component update
(src/reader.rs), DeleteBlock and UpdateBlock on a uuid carried by no block
fail (the .unwrap() panic, embedded as none) instead of being silently
swallowed; and when a block with the uuid exists (uuids being distinct),
DeleteBlock removes exactly the blocks carrying that uuid and UpdateBlock
overwrites exactly them, leaving every other block unchanged. -/
theorem C9_missing_block_fatal_exact :
    (∀ (s : PageState) (u : String),
      (∀ b ∈ s.ocr.blocks, b.uuid ≠ u) →
      s.reduce (PageAction.DeleteBlock u) = none ∧
      (∀ blk : OcrBlock, blk.uuid = u →
        s.reduce (PageAction.UpdateBlock blk) = none)) ∧
    (∀ (uuid : String) (bbox : BoundingBox) (p : PageComponent) (u : String),
      (∀ b ∈ p.ocr.blocks, b.uuid ≠ u) →
      p.update uuid bbox (PageMessage.DeleteBlock u) = none ∧
      (∀ blk : OcrBlock, blk.uuid = u →
        p.update uuid bbox (PageMessage.UpdateBlock blk) = none)) ∧
    (∀ (s : PageState) (b : OcrBlock),
      (s.ocr.blocks.map OcrBlock.uuid).Nodup → b ∈ s.ocr.blocks →
      s.reduce (PageAction.DeleteBlock b.uuid) =
        some { s with ocr := { s.ocr with blocks := s.ocr.blocks.filter (fun x => decide (x.uuid ≠ b.uuid)) } } ∧
      (∀ nb : OcrBlock, nb.uuid = b.uuid →
        s.reduce (PageAction.UpdateBlock nb) =
          some { s with ocr := { s.ocr with blocks := s.ocr.blocks.map (fun x => if x.uuid = b.uuid then nb else x) } })) ∧
    (∀ (uuid : String) (bbox : BoundingBox) (p : PageComponent) (b : OcrBlock),
      (p.ocr.blocks.map OcrBlock.uuid).Nodup → b ∈ p.ocr.blocks →
      (p.update uuid bbox (PageMessage.DeleteBlock b.uuid)).map Prod.fst =
        some { p with ocr := { p.ocr with blocks := p.ocr.blocks.filter (fun x => decide (x.uuid ≠ b.uuid)) } } ∧
      (∀ nb : OcrBlock, nb.uuid = b.uuid →
        (p.update uuid bbox (PageMessage.UpdateBlock nb)).map Prod.fst =
          some { p with ocr := { p.ocr with blocks := p.ocr.blocks.map (fun x => if x.uuid = b.uuid then nb else x) } })) := by
  refine ⟨?_, ?_, ?_, ?_⟩
  · intro s u h
    refine ⟨?_, ?_⟩
    · simp [PageState.reduce, findIdx_uuid_none s.ocr.blocks u h]
    · intro blk hblk
      simp [PageState.reduce, hblk, findIdx_uuid_none s.ocr.blocks u h]
  · intro uuid bbox p u h
    refine ⟨?_, ?_⟩
    · simp [PageComponent.update, findIdx_uuid_none p.ocr.blocks u h]
    · intro blk hblk
      simp [PageComponent.update, hblk, findIdx_uuid_none p.ocr.blocks u h]
  · intro s b hnd hb
    obtain ⟨i, hfind, herase⟩ :=
      findIdx_erase_filter s.ocr.blocks b.uuid hnd b hb rfl
    refine ⟨?_, ?_⟩
    · simp [PageState.reduce, hfind, herase]
    · intro nb hnb
      obtain ⟨k, hk, hs⟩ := findIdx_set_map s.ocr.blocks b.uuid hnd b hb rfl nb
      simp [PageState.reduce, hnb, hk, hs]
  · intro uuid bbox p b hnd hb
    obtain ⟨i, hfind, herase⟩ :=
      findIdx_erase_filter p.ocr.blocks b.uuid hnd b hb rfl
    refine ⟨?_, ?_⟩
    · simp [PageComponent.update, hfind, herase]
    · intro nb hnb
      obtain ⟨k, hk, hs⟩ := findIdx_set_map p.ocr.blocks b.uuid hnd b hb rfl nb
      simp [PageComponent.update, hnb, hk, hs]

/-- Witness for C9: deleting an absent uuid fails; deleting a present one
removes exactly that block. -/
theorem C9_missing_block_fatal_exact_witness :
    wPageState.reduce (PageAction.DeleteBlock "absent") = none ∧
    wPageState.reduce (PageAction.DeleteBlock wBlock.uuid) =
      some { wPageState with ocr := { wPageState.ocr with blocks := wPageState.ocr.blocks.filter (fun x => decide (x.uuid ≠ wBlock.uuid)) } } :=
  ⟨(C9_missing_block_fatal_exact.1 wPageState "absent" (by decide)).1,
   (C9_missing_block_fatal_exact.2.2.1 wPageState wBlock (by decide)
      (by decide)).1⟩

/-! Helper lemma about the cascade delete loop. -/

theorem deletePageRows_lookup (vid : Nat) (pairs : List (String × String))
    (db : Database) (k : Nat × String) :
    ((deletePageRows vid pairs db).pages k
      = if k.1 = vid ∧ k.2 ∈ pairs.map Prod.fst then none else db.pages k) ∧
    ((deletePageRows vid pairs db).ocr k
      = if k.1 = vid ∧ k.2 ∈ pairs.map Prod.fst then none else db.ocr k) ∧
    (deletePageRows vid pairs db).volumes = db.volumes ∧
    (deletePageRows vid pairs db).next_id = db.next_id := by
  induction pairs generalizing db with
  | nil => simp [deletePageRows]
  | cons pr rest ih =>
    obtain ⟨p, o⟩ := pr
    obtain ⟨k1, k2⟩ := k
    simp only [deletePageRows]
    refine ⟨?_, ?_, ?_, ?_⟩
    · rw [(ih _).1]
      by_cases h1 : k1 = vid <;> by_cases h2 : k2 = p <;>
        by_cases h3 : k2 ∈ rest.map Prod.fst <;>
        simp_all [Prod.mk.injEq, List.mem_cons]
    · rw [(ih _).2.1]
      by_cases h1 : k1 = vid <;> by_cases h2 : k2 = p <;>
        by_cases h3 : k2 ∈ rest.map Prod.fst <;>
        simp_all [Prod.mk.injEq, List.mem_cons]
    · rw [(ih _).2.2.1]
    · rw [(ih _).2.2.2]

/-- C7.  Cascade delete: delete_volume removes, for every declared
(page_name, ocr_name) pair of the stored volume, the pages row and the ocr
row keyed (volume_id, page_name) and then the volume row, so that - with
the store invariant that every pages and ocr row of that volume is listed
in its pages list - no Page or OCR row with that id remains, while every
other volume's rows are untouched; a nonexistent volume id yields an error
from the initial lookup before any deletion, leaving the store as it was. -/
theorem C7_cascade_delete :
    (∀ (db : Database) (volume_id : Nat),
      get_volume db volume_id = none → delete_volume db volume_id = none) ∧
    (∀ (db : Database) (volume_id : Nat) (volume : VolumeMetadata),
      get_volume db volume_id = some volume →
      (∀ name, (db.pages (volume_id, name)).isSome →
        name ∈ volume.pages.map Prod.fst) →
      (∀ name, (db.ocr (volume_id, name)).isSome →
        name ∈ volume.pages.map Prod.fst) →
      ∃ db2, delete_volume db volume_id = some db2 ∧
        (∀ name, db2.pages (volume_id, name) = none) ∧
        (∀ name, db2.ocr (volume_id, name) = none) ∧
        db2.volumes volume_id = none ∧
        (∀ id2, id2 ≠ volume_id → db2.volumes id2 = db.volumes id2) ∧
        (∀ k : Nat × String, k.1 ≠ volume_id →
          db2.pages k = db.pages k ∧ db2.ocr k = db.ocr k)) := by
  constructor
  · intro db volume_id hnone
    simp [delete_volume, hnone]
  · intro db volume_id volume hsome hpc hoc
    refine ⟨{ deletePageRows volume_id volume.pages db with
        volumes := fun k => if k = volume_id then none
          else (deletePageRows volume_id volume.pages db).volumes k },
      by simp [delete_volume, hsome], ?_, ?_, ?_, ?_, ?_⟩
    · intro name
      show (deletePageRows volume_id volume.pages db).pages (volume_id, name)
        = none
      rw [(deletePageRows_lookup volume_id volume.pages db
        (volume_id, name)).1]
      by_cases hmem : name ∈ volume.pages.map Prod.fst
      · simp [hmem]
      · have : ¬(db.pages (volume_id, name)).isSome := fun h => hmem (hpc name h)
        simp [hmem, Option.not_isSome_iff_eq_none.mp this]
    · intro name
      show (deletePageRows volume_id volume.pages db).ocr (volume_id, name)
        = none
      rw [(deletePageRows_lookup volume_id volume.pages db
        (volume_id, name)).2.1]
      by_cases hmem : name ∈ volume.pages.map Prod.fst
      · simp [hmem]
      · have : ¬(db.ocr (volume_id, name)).isSome := fun h => hmem (hoc name h)
        simp [hmem, Option.not_isSome_iff_eq_none.mp this]
    · show (if volume_id = volume_id then none
        else (deletePageRows volume_id volume.pages db).volumes volume_id) = none
      simp
    · intro id2 hid2
      show (if id2 = volume_id then none
        else (deletePageRows volume_id volume.pages db).volumes id2)
        = db.volumes id2
      rw [if_neg hid2,
        (deletePageRows_lookup volume_id volume.pages db (0, "")).2.2.1]
    · intro k hk
      constructor
      · show (deletePageRows volume_id volume.pages db).pages k = db.pages k
        rw [(deletePageRows_lookup volume_id volume.pages db k).1]
        simp [hk]
      · show (deletePageRows volume_id volume.pages db).ocr k = db.ocr k
        rw [(deletePageRows_lookup volume_id volume.pages db k).2.1]
        simp [hk]

/-- Witness for C7 at the concrete one volume store: deleting volume 1
clears its rows, deleting the absent volume 2 is an error. -/
theorem C7_cascade_delete_witness :
    delete_volume wdb 2 = none ∧
    ∃ db2, delete_volume wdb 1 = some db2 ∧
      (∀ name, db2.pages (1, name) = none) ∧
      (∀ name, db2.ocr (1, name) = none) ∧
      db2.volumes 1 = none :=
  ⟨C7_cascade_delete.1 wdb 2 rfl,
   by
    obtain ⟨db2, h1, h2, h3, h4, _, _⟩ :=
      C7_cascade_delete.2 wdb 1 wvol1 rfl
        (by
          intro name h
          by_cases hn : name = "p1.png"
          · simp [wvol1, sampleVolume, hn]
          · exfalso
            simp [wdb, Prod.mk.injEq, hn] at h)
        (by
          intro name h
          by_cases hn : name = "p1.png"
          · simp [wvol1, sampleVolume, hn]
          · exfalso
            simp [wdb, Prod.mk.injEq, hn] at h)
    exact ⟨db2, h1, h2, h3, h4⟩⟩

/-! Helper lemma about clean drag sessions. -/

theorem foldl_moves_clean (x y : Int) (moves : List (Int × Int)) (d : Drag)
    (hdx : d.start_x = x) (hdy : d.start_y = y) (hdirty : d.dirty = false)
    (h : ∀ m ∈ moves, (x - m.1).natAbs ≤ 2 ∧ (y - m.2).natAbs ≤ 2) :
    (moves.foldl (fun d m => d.move_to m.1 m.2) d).start_x = x ∧
    (moves.foldl (fun d m => d.move_to m.1 m.2) d).start_y = y ∧
    (moves.foldl (fun d m => d.move_to m.1 m.2) d).dirty = false := by
  induction moves generalizing d with
  | nil => exact ⟨hdx, hdy, hdirty⟩
  | cons m ms ih =>
    obtain ⟨hm1, hm2⟩ := h m (by simp)
    refine ih (d.move_to m.1 m.2) hdx hdy ?_
      (fun m2 hm => h m2 (by simp [hm]))
    simp [Drag.move_to, hdirty, hdx, hdy]
    omega

/-- C8.  Drag dirty-threshold: a drag session begun by mouse-down whose
moves all stay within the two pixel threshold of the start point keeps its
dirty flag false; EndDrag on a non-dirty session only clears the session -
it appends no OcrBlock and schedules no commit; and the mouse-up handler
of an existing block commits a box change exactly when the box recomputed
from the rendered rectangle differs from the stored box, so a plain click
(whose recomputed box equals the stored one) commits nothing. -/
theorem C8_drag_dirty_threshold :
    (∀ (x y : Int) (moves : List (Int × Int)),
      (∀ m ∈ moves, (x - m.1).natAbs ≤ 2 ∧ (y - m.2).natAbs ≤ 2) →
      (dragSession x y moves).dirty = false) ∧
    (∀ (uuid : String) (bbox : BoundingBox) (p : PageComponent) (d : Drag),
      p.drag = some d → d.dirty = false →
      p.update uuid bbox PageMessage.EndDrag =
        some ({ p with drag := none }, none)) ∧
    (∀ (rect : DomRect) (bboxLeft bboxTop scale : Rat) (block : OcrBlock),
      (recompute_box rect bboxLeft bboxTop scale = block.box_ →
        TextBlock.mouseUp rect bboxLeft bboxTop scale block = none) ∧
      (∀ b2, TextBlock.mouseUp rect bboxLeft bboxTop scale block = some b2 →
        recompute_box rect bboxLeft bboxTop scale ≠ block.box_)) := by
  refine ⟨?_, ?_, ?_⟩
  · intro x y moves h
    exact (foldl_moves_clean x y moves (Drag.new x y) rfl rfl rfl h).2.2
  · intro uuid bbox p d hp hdirty
    simp [PageComponent.update, hp, Option.filter, hdirty]
  · intro rect bboxLeft bboxTop scale block
    constructor
    · intro h
      simp [TextBlock.mouseUp, h]
    · intro b2 hb2
      intro heq
      simp [TextBlock.mouseUp, heq] at hb2

theorem ratRound_nonneg_eval (q : Rat) (n : Int) (hq : ¬q < 0)
    (h1 : (n : Rat) ≤ q + 1 / 2) (h2 : q + 1 / 2 < n + 1) :
    ratRound q = n := by
  unfold ratRound
  rw [if_neg hq, Rat.floor_def', ← Rat.floor_def]
  exact Int.floor_eq_iff.mpr ⟨h1, by exact_mod_cast h2⟩

theorem wDomRect_maps_back : recompute_box wDomRect 0 0 1 = wBlock.box_ := by
  have hl : ratRound ((wDomRect.left - 0) * 1) = 10 :=
    ratRound_nonneg_eval _ 10 (by norm_num [wDomRect])
      (by norm_num [wDomRect]) (by norm_num [wDomRect])
  have hw : ratRound (wDomRect.width * 1) = 100 :=
    ratRound_nonneg_eval _ 100 (by norm_num [wDomRect])
      (by norm_num [wDomRect]) (by norm_num [wDomRect])
  have ht : ratRound ((wDomRect.top - 0) * 1) = 20 :=
    ratRound_nonneg_eval _ 20 (by norm_num [wDomRect])
      (by norm_num [wDomRect]) (by norm_num [wDomRect])
  have hh : ratRound (wDomRect.height * 1) = 200 :=
    ratRound_nonneg_eval _ 200 (by norm_num [wDomRect])
      (by norm_num [wDomRect]) (by norm_num [wDomRect])
  unfold recompute_box
  rw [hl, hw, ht, hh]
  decide

/-- Witness for C8: a concrete click-like session creates nothing and a
mouse-up whose rendered rect maps back onto the stored box commits
nothing. -/
theorem C8_drag_dirty_threshold_witness :
    (dragSession 0 0 [(1, 1), (2, -2)]).dirty = false ∧
    wPageComp.update "new-uuid" wBBox PageMessage.EndDrag =
      some ({ wPageComp with drag := none }, none) ∧
    TextBlock.mouseUp wDomRect 0 0 1 wBlock = none :=
  ⟨C8_drag_dirty_threshold.1 0 0 [(1, 1), (2, -2)] (by decide),
   C8_drag_dirty_threshold.2.1 "new-uuid" wBBox wPageComp
     (dragSession 0 0 [(1, 1), (2, -2)]) rfl (by decide),
   (C8_drag_dirty_threshold.2.2 wDomRect 0 0 1 wBlock).1 wDomRect_maps_back⟩

/-! Helper lemmas about the archive codec. -/

theorem coverName_adjust (v : VolumeMetadata) (i : Nat)
    (m : MagnifierSettings) :
    ({ v with id := i, magnifier := m } : VolumeMetadata).coverName
      = v.coverName := rfl

theorem zfind_ok (archive : ZipArchive) (n : String) (e : ZipEntry)
    (h : zfind archive n = some e) : archiveFile archive n = Except.ok e := by
  simp [archiveFile, h]

theorem zfind_missing (archive : ZipArchive) (n : String)
    (h : zfind archive n = none) :
    archiveFile archive n = Except.error (ImportError.MissingFile n) := by
  simp [archiveFile, h]

theorem importPages_missing (archive : ZipArchive)
    (done : List (String × String)) (p po : String)
    (rest : List (String × String))
    (hdone : ∀ pr ∈ done,
      (∃ d, zfind archive pr.1 = some (ZipEntry.image d)) ∧
      (∃ x, zfind archive pr.2 = some (ZipEntry.ocrData x))) :
    (zfind archive p = none →
      importPages archive (done ++ (p, po) :: rest) =
        Except.error (ImportError.MissingFile p)) ∧
    (∀ d, zfind archive p = some (ZipEntry.image d) →
      zfind archive po = none →
      importPages archive (done ++ (p, po) :: rest) =
        Except.error (ImportError.MissingFile po)) := by
  induction done with
  | nil =>
    constructor
    · intro hp
      rw [List.nil_append]
      simp [importPages, zfind_missing _ _ hp]
    · intro d hp hpo
      rw [List.nil_append]
      simp [importPages, zfind_ok _ _ _ hp, zfind_missing _ _ hpo, entryBytes]
  | cons pr done ih =>
    obtain ⟨⟨d1, hd1⟩, ⟨x1, hx1⟩⟩ := hdone pr (by simp)
    have ih2 := ih (fun pr2 hpr2 => hdone pr2 (by simp [hpr2]))
    obtain ⟨pn, o2⟩ := pr
    constructor
    · intro hp
      rw [List.cons_append]
      simp [importPages, zfind_ok _ _ _ hd1, zfind_ok _ _ _ hx1,
        entryBytes, parseOcr, ih2.1 hp]
    · intro d hp hpo
      rw [List.cons_append]
      simp [importPages, zfind_ok _ _ _ hd1, zfind_ok _ _ _ hx1,
        entryBytes, parseOcr, ih2.2 d hp hpo]

theorem readPhase_missing_meta (settings : Settings) (archive : ZipArchive)
    (h : zfind archive METADATA_FILE = none) :
    importReadPhase settings archive =
      Except.error (ImportError.MissingFile METADATA_FILE) := by
  unfold importReadPhase
  rw [zfind_missing _ _ h]

theorem readPhase_missing_cover (settings : Settings) (archive : ZipArchive)
    (volume0 : VolumeMetadata) (c : String)
    (hm : zfind archive METADATA_FILE = some (ZipEntry.metadata volume0))
    (hc : volume0.coverName = some c)
    (hcm : zfind archive c = none) :
    importReadPhase settings archive =
      Except.error (ImportError.MissingFile c) := by
  simp [importReadPhase, zfind_ok _ _ _ hm, parseVolume, coverName_adjust,
    hc, zfind_missing _ _ hcm]

theorem readPhase_missing_entry (settings : Settings) (archive : ZipArchive)
    (volume0 : VolumeMetadata) (c : String) (cd : List Nat)
    (done : List (String × String)) (p po : String)
    (rest : List (String × String))
    (hm : zfind archive METADATA_FILE = some (ZipEntry.metadata volume0))
    (hc : volume0.coverName = some c)
    (hcimg : zfind archive c = some (ZipEntry.image cd))
    (hsplit : volume0.pages = done ++ (p, po) :: rest)
    (hdone : ∀ pr ∈ done,
      (∃ d, zfind archive pr.1 = some (ZipEntry.image d)) ∧
      (∃ x, zfind archive pr.2 = some (ZipEntry.ocrData x))) :
    (zfind archive p = none →
      importReadPhase settings archive =
        Except.error (ImportError.MissingFile p)) ∧
    (∀ d, zfind archive p = some (ZipEntry.image d) →
      zfind archive po = none →
      importReadPhase settings archive =
        Except.error (ImportError.MissingFile po)) := by
  constructor
  · intro hp
    have hip : importPages archive volume0.pages =
        Except.error (ImportError.MissingFile p) := by
      rw [hsplit]
      exact (importPages_missing archive done p po rest hdone).1 hp
    simp [importReadPhase, zfind_ok _ _ _ hm, parseVolume, coverName_adjust,
      hc, zfind_ok _ _ _ hcimg, entryBytes, hip]
  · intro d hp hpo
    have hip : importPages archive volume0.pages =
        Except.error (ImportError.MissingFile po) := by
      rw [hsplit]
      exact (importPages_missing archive done p po rest hdone).2 d hp hpo
    simp [importReadPhase, zfind_ok _ _ _ hm, parseVolume, coverName_adjust,
      hc, zfind_ok _ _ _ hcimg, entryBytes, hip]

/-- C2.  Import atomicity and ordering: the read phase (metadata entry,
cover entry, every declared page and OCR entry, in that order) runs before
the write transaction is opened and does not touch the store; any import
failure leaves the store exactly as it was, and an absent named entry
fails the import with a MissingFile error naming that entry - in
particular an archive missing one declared page or OCR entry (all earlier
entries being present) fails with MissingFile of that entry and writes no
Volume, Page, or OCR row. -/
theorem C2_import_atomicity :
    (∀ (db : Database) (settings : Settings) (archive : ZipArchive)
       (e : ImportError),
      (extract_ziparchive db settings archive).2 = Except.error e →
      (extract_ziparchive db settings archive).1 = db) ∧
    (∀ (db : Database) (settings : Settings) (archive : ZipArchive)
       (e : ImportError),
      importReadPhase settings archive = Except.error e →
      extract_ziparchive db settings archive = (db, Except.error e)) ∧
    (∀ (db : Database) (settings : Settings) (archive : ZipArchive),
      zfind archive METADATA_FILE = none →
      extract_ziparchive db settings archive =
        (db, Except.error (ImportError.MissingFile METADATA_FILE))) ∧
    (∀ (db : Database) (settings : Settings) (archive : ZipArchive)
       (volume0 : VolumeMetadata) (c : String),
      zfind archive METADATA_FILE = some (ZipEntry.metadata volume0) →
      volume0.coverName = some c →
      zfind archive c = none →
      extract_ziparchive db settings archive =
        (db, Except.error (ImportError.MissingFile c))) ∧
    (∀ (db : Database) (settings : Settings) (archive : ZipArchive)
       (volume0 : VolumeMetadata) (c : String) (cd : List Nat)
       (done : List (String × String)) (p po : String)
       (rest : List (String × String)),
      zfind archive METADATA_FILE = some (ZipEntry.metadata volume0) →
      volume0.coverName = some c →
      zfind archive c = some (ZipEntry.image cd) →
      volume0.pages = done ++ (p, po) :: rest →
      (∀ pr ∈ done,
        (∃ d, zfind archive pr.1 = some (ZipEntry.image d)) ∧
        (∃ x, zfind archive pr.2 = some (ZipEntry.ocrData x))) →
      ((zfind archive p = none →
        extract_ziparchive db settings archive =
          (db, Except.error (ImportError.MissingFile p))) ∧
       (∀ d, zfind archive p = some (ZipEntry.image d) →
        zfind archive po = none →
        extract_ziparchive db settings archive =
          (db, Except.error (ImportError.MissingFile po))))) := by
  have hext : ∀ (db : Database) (settings : Settings) (archive : ZipArchive)
      (e : ImportError),
      importReadPhase settings archive = Except.error e →
      extract_ziparchive db settings archive = (db, Except.error e) := by
    intro db settings archive e h
    unfold extract_ziparchive
    rw [h]
  refine ⟨?_, hext, ?_, ?_, ?_⟩
  · intro db settings archive e h
    unfold extract_ziparchive at h ⊢
    cases hrp : importReadPhase settings archive with
    | error e2 => simp [hrp]
    | ok val =>
      obtain ⟨volume, cn, cd, pd⟩ := val
      cases hwp : importWritePhase db volume pd with
      | error e3 => simp [hrp, hwp]
      | ok val2 =>
        rw [hrp] at h
        simp only at h
        rw [hwp] at h
        simp at h
  · intro db settings archive h
    exact hext db settings archive _ (readPhase_missing_meta settings archive h)
  · intro db settings archive volume0 c hm hc hcm
    exact hext db settings archive _
      (readPhase_missing_cover settings archive volume0 c hm hc hcm)
  · intro db settings archive volume0 c cd done p po rest hm hc hcimg hsplit hdone
    constructor
    · intro hp
      exact hext db settings archive _
        ((readPhase_missing_entry settings archive volume0 c cd done p po rest
          hm hc hcimg hsplit hdone).1 hp)
    · intro d hp hpo
      exact hext db settings archive _
        ((readPhase_missing_entry settings archive volume0 c cd done p po rest
          hm hc hcimg hsplit hdone).2 d hp hpo)

/-- Witness for C2: the concrete archive missing its one declared OCR
entry fails with MissingFile naming that entry and leaves the empty store
untouched. -/
theorem C2_import_atomicity_witness :
    extract_ziparchive emptyDb defaultSettings c2archive =
      (emptyDb, Except.error (ImportError.MissingFile "_ocr/p1.json")) :=
  (C2_import_atomicity.2.2.2.2 emptyDb defaultSettings c2archive
    { cexVol with id := 0 } "p1.png" wImage.data [] "p1.png" "_ocr/p1.json" []
    (by decide) (by decide) (by decide) (by decide) (by simp)).2
    wImage.data (by decide) (by decide)

/-! Helper lemmas for the export/import round trip. -/

theorem mem_declaredNames (pairs : List (String × String))
    (pr : String × String) (h : pr ∈ pairs) :
    pr.1 ∈ declaredNames pairs ∧ pr.2 ∈ declaredNames pairs := by
  induction pairs with
  | nil => cases h
  | cons pr2 rest ih =>
    rcases List.mem_cons.mp h with rfl | h2
    · simp [declaredNames]
    · obtain ⟨h1, h2⟩ := ih h2
      simp [declaredNames, h1, h2]

theorem map_fst_subset_declaredNames (pairs : List (String × String))
    (n : String) (h : n ∈ pairs.map Prod.fst) : n ∈ declaredNames pairs := by
  rcases List.mem_map.mp h with ⟨pr, hpr, rfl⟩
  exact (mem_declaredNames pairs pr hpr).1

theorem declaredNames_nodup_map_fst (pairs : List (String × String))
    (hnd : (declaredNames pairs).Nodup) : (pairs.map Prod.fst).Nodup := by
  induction pairs with
  | nil => simp
  | cons pr rest ih =>
    rw [declaredNames] at hnd
    obtain ⟨h1, hnd2⟩ := List.nodup_cons.mp hnd
    obtain ⟨h2, hnd3⟩ := List.nodup_cons.mp hnd2
    rw [List.map_cons, List.nodup_cons]
    refine ⟨?_, ih hnd3⟩
    intro hmem
    exact h1 (by simp [map_fst_subset_declaredNames rest pr.1 hmem])

theorem forall₂_exists_left {α β : Type} {R : α → β → Prop} :
    ∀ {l1 : List α} {l2 : List β}, List.Forall₂ R l1 l2 →
      ∀ a ∈ l1, ∃ b ∈ l2, R a b := by
  intro l1 l2 h
  induction h with
  | nil => intro a ha; cases ha
  | cons hab _ ih =>
    intro a ha
    rcases List.mem_cons.mp ha with rfl | ha2
    · exact ⟨_, by simp, hab⟩
    · obtain ⟨b, hb, hr⟩ := ih a ha2
      exact ⟨b, by simp [hb], hr⟩

theorem forall₂_map_eq {α β γ : Type} {R : α → β → Prop}
    (f : α → γ) (g : β → γ) (hfg : ∀ a b, R a b → g b = f a) :
    ∀ {l1 : List α} {l2 : List β}, List.Forall₂ R l1 l2 →
      l2.map g = l1.map f := by
  intro l1 l2 h
  induction h with
  | nil => rfl
  | cons hab _ ih => simp [ih, hfg _ _ hab]

theorem exportPages_spec (db : Database) (vid : Nat)
    (pairs : List (String × String))
    (hpres : ∀ pr ∈ pairs,
      (db.pages (vid, pr.1)).isSome ∧ (db.ocr (vid, pr.1)).isSome)
    (hnd : (declaredNames pairs).Nodup) :
    ∃ es, exportPages db vid pairs = some es ∧
      (∀ pr ∈ pairs,
        (∃ img, db.pages (vid, pr.1) = some img ∧
          zfind es pr.1 = some (ZipEntry.image img.data)) ∧
        (∃ ocr, db.ocr (vid, pr.1) = some ocr ∧
          zfind es pr.2 = some (ZipEntry.ocrData ocr))) := by
  induction pairs with
  | nil => exact ⟨[], rfl, by simp⟩
  | cons pr rest ih =>
    obtain ⟨hp1, hp2⟩ := hpres pr (by simp)
    obtain ⟨img, himg⟩ := Option.isSome_iff_exists.mp hp1
    obtain ⟨ocr, hocr⟩ := Option.isSome_iff_exists.mp hp2
    rw [declaredNames] at hnd
    obtain ⟨hn1, hnd2⟩ := List.nodup_cons.mp hnd
    obtain ⟨hn2, hnd3⟩ := List.nodup_cons.mp hnd2
    obtain ⟨es, hes, hlook⟩ :=
      ih (fun pr2 h2 => hpres pr2 (by simp [h2])) hnd3
    obtain ⟨pn, o2⟩ := pr
    have hne : pn ≠ o2 := fun h => hn1 (by simp [h])
    refine ⟨(pn, ZipEntry.image img.data)
        :: (o2, ZipEntry.ocrData ocr) :: es, ?_, ?_⟩
    · simp [exportPages, himg, hocr, hes]
    · intro pr2 h2
      rcases List.mem_cons.mp h2 with rfl | h3
      · constructor
        · exact ⟨img, himg, by simp [zfind]⟩
        · exact ⟨ocr, hocr, by simp [zfind, hne]⟩
      · have hm1 : pr2.1 ∈ declaredNames rest :=
          (mem_declaredNames rest pr2 h3).1
        have hm2 : pr2.2 ∈ declaredNames rest :=
          (mem_declaredNames rest pr2 h3).2
        have d11 : pn ≠ pr2.1 := fun h => hn1 (by simp [h, hm1])
        have d12 : o2 ≠ pr2.1 := fun h => hn2 (by rw [h]; exact hm1)
        have d21 : pn ≠ pr2.2 := fun h => hn1 (by simp [h, hm2])
        have d22 : o2 ≠ pr2.2 := fun h => hn2 (by rw [h]; exact hm2)
        obtain ⟨hl1, hl2⟩ := hlook pr2 h3
        constructor
        · obtain ⟨img2, himg2, hf⟩ := hl1
          exact ⟨img2, himg2, by simp [zfind, d11, d12, hf]⟩
        · obtain ⟨ocr2, hocr2, hf⟩ := hl2
          exact ⟨ocr2, hocr2, by simp [zfind, d21, d22, hf]⟩

theorem importPages_roundtrip (archive : ZipArchive) (db : Database)
    (vid : Nat) (pairs : List (String × String))
    (hlook : ∀ pr ∈ pairs,
      (∃ img, db.pages (vid, pr.1) = some img ∧
        zfind archive pr.1 = some (ZipEntry.image img.data)) ∧
      (∃ ocr, db.ocr (vid, pr.1) = some ocr ∧
        zfind archive pr.2 = some (ZipEntry.ocrData ocr))) :
    ∃ data, importPages archive pairs = Except.ok data ∧
      List.Forall₂
        (fun (pr : String × String) (t : String × PageImage × PageOcr) =>
          t.1 = pr.1 ∧ t.2.1.name = pr.1 ∧
          (db.pages (vid, pr.1)).map PageImage.data = some t.2.1.data ∧
          db.ocr (vid, pr.1) = some t.2.2) pairs data := by
  induction pairs with
  | nil => exact ⟨[], rfl, List.Forall₂.nil⟩
  | cons pr rest ih =>
    obtain ⟨⟨img, himg, hfind⟩, ⟨ocr, hocr, hfind2⟩⟩ := hlook pr (by simp)
    obtain ⟨data, hdata, hcorr⟩ := ih (fun pr2 h2 => hlook pr2 (by simp [h2]))
    obtain ⟨pn, o2⟩ := pr
    refine ⟨(pn, ⟨pn, img.data⟩, ocr) :: data, ?_, ?_⟩
    · simp [importPages, zfind_ok _ _ _ hfind, zfind_ok _ _ _ hfind2,
        entryBytes, parseOcr, hdata]
    · exact List.Forall₂.cons ⟨rfl, rfl, by simp [himg], hocr⟩ hcorr

theorem insertRows_spec (vid : Nat) :
    ∀ (data : List (String × PageImage × PageOcr)) (db : Database),
    (∀ t ∈ data, db.pages (vid, t.1) = none ∧ db.ocr (vid, t.1) = none) →
    (data.map (fun t => t.1)).Nodup →
    ∃ db3, insertRows vid data db = Except.ok db3 ∧
      db3.next_id = db.next_id ∧ db3.volumes = db.volumes ∧
      (∀ t ∈ data,
        db3.pages (vid, t.1) = some t.2.1 ∧ db3.ocr (vid, t.1) = some t.2.2) ∧
      (∀ k : Nat × String, (k.1 ≠ vid ∨ k.2 ∉ data.map (fun t => t.1)) →
        db3.pages k = db.pages k ∧ db3.ocr k = db.ocr k) := by
  intro data
  induction data with
  | nil =>
    intro db _ _
    exact ⟨db, rfl, rfl, rfl, by simp, fun k _ => ⟨rfl, rfl⟩⟩
  | cons t rest ih =>
    intro db hfresh hnd
    obtain ⟨name, img, ocr⟩ := t
    obtain ⟨hf1, hf2⟩ := hfresh (name, img, ocr) (by simp)
    rw [List.map_cons, List.nodup_cons] at hnd
    obtain ⟨hn1, hnd2⟩ := hnd
    set db1 : Database :=
      { db with
        pages := fun k => if k = (vid, name) then some img else db.pages k,
        ocr := fun k => if k = (vid, name) then some ocr else db.ocr k }
      with hdb1
    have hfresh2 : ∀ t2 ∈ rest,
        db1.pages (vid, t2.1) = none ∧ db1.ocr (vid, t2.1) = none := by
      intro t2 ht2
      have hneq : t2.1 ≠ name := by
        intro h
        have hmm : t2.1 ∈ rest.map (fun t => t.1) :=
          List.mem_map.mpr ⟨t2, ht2, rfl⟩
        exact hn1 (h ▸ hmm)
      obtain ⟨g1, g2⟩ := hfresh t2 (by simp [ht2])
      constructor
      · show (if (vid, t2.1) = (vid, name) then some img
          else db.pages (vid, t2.1)) = none
        rw [if_neg (by simp [hneq]), g1]
      · show (if (vid, t2.1) = (vid, name) then some ocr
          else db.ocr (vid, t2.1)) = none
        rw [if_neg (by simp [hneq]), g2]
    obtain ⟨db3, hins, hnext, hvols, hrows, hpre⟩ := ih db1 hfresh2 hnd2
    refine ⟨db3, ?_, ?_, ?_, ?_, ?_⟩
    · rw [insertRows, hf1, hf2]
      simp only [Option.isSome_none, Bool.or_self, Bool.false_eq_true,
        if_false]
      exact hins
    · rw [hnext]
    · rw [hvols]
    · intro t2 ht2
      rcases List.mem_cons.mp ht2 with rfl | h3
      · have hout : ((vid, name) : Nat × String).2 ∉ rest.map (fun t => t.1) :=
          hn1
        obtain ⟨q1, q2⟩ := hpre (vid, name) (Or.inr hout)
        constructor
        · rw [q1]
          show (if ((vid, name) : Nat × String) = (vid, name) then some img
            else db.pages (vid, name)) = some img
          rw [if_pos rfl]
        · rw [q2]
          show (if ((vid, name) : Nat × String) = (vid, name) then some ocr
            else db.ocr (vid, name)) = some ocr
          rw [if_pos rfl]
      · exact hrows t2 h3
    · intro k hk
      have hk2 : k.1 ≠ vid ∨ k.2 ∉ rest.map (fun t => t.1) := by
        rcases hk with h | h
        · exact Or.inl h
        · exact Or.inr (fun hmem => h (by simp [hmem]))
      have hkneq : k ≠ (vid, name) := by
        intro h
        rcases hk with hh | hh
        · exact hh (by rw [h])
        · exact hh (by rw [h]; simp)
      obtain ⟨q1, q2⟩ := hpre k hk2
      constructor
      · rw [q1]
        show (if k = (vid, name) then some img else db.pages k) = db.pages k
        rw [if_neg hkneq]
      · rw [q2]
        show (if k = (vid, name) then some ocr else db.ocr k) = db.ocr k
        rw [if_neg hkneq]

theorem readPhase_ok (settings : Settings) (archive : ZipArchive)
    (volume0 : VolumeMetadata) (c : String) (coverBytes : List Nat)
    (data : List (String × PageImage × PageOcr))
    (hm : zfind archive METADATA_FILE = some (ZipEntry.metadata volume0))
    (hc : volume0.coverName = some c)
    (hcimg : zfind archive c = some (ZipEntry.image coverBytes))
    (hip : importPages archive volume0.pages = Except.ok data) :
    importReadPhase settings archive = Except.ok
      ({ volume0 with id := 0, magnifier := settings.magnifier },
        c, coverBytes, data) := by
  simp [importReadPhase, zfind_ok _ _ _ hm, parseVolume, coverName_adjust,
    hc, zfind_ok _ _ _ hcimg, entryBytes, hip]

theorem coverName_set_id (v : VolumeMetadata) (i : Nat) :
    ({ v with id := i } : VolumeMetadata).coverName = v.coverName := rfl

theorem importWritePhase_eq (db : Database) (volume : VolumeMetadata)
    (data : List (String × PageImage × PageOcr)) :
    importWritePhase db volume data =
      match insertRows db.next_id data
        ({ db with
           next_id := db.next_id + 1,
           volumes := fun k => if k = db.next_id
             then some { volume with id := db.next_id } else db.volumes k }) with
      | Except.error e => Except.error e
      | Except.ok db3 =>
        Except.ok (db3, { volume with id := db.next_id }) := rfl

/-- C1 (amended).  Round trip: exporting a stored volume whose declared
page and OCR rows are all present (entry names distinct and not colliding
with the metadata or directory entry, cover resolving to a declared page,
per the archive layout) and importing the produced archive into a store
with a fresh key yields a volume with the same title, the same ordered
pages list and, for every page, the stored PageOcr row equal to the
original (hence every OcrBlock equal by uuid, box, lines, font_size and
vertical); only the store-assigned id and the magnifier settings
(reassigned from the global Settings during import) may differ. -/
theorem C1_roundtrip_amended (db target : Database) (volume_id : Nat)
    (volume : VolumeMetadata) (settings : Settings)
    (hvol : get_volume db volume_id = some volume)
    (hpres : ∀ pr ∈ volume.pages,
      (db.pages (volume_id, pr.1)).isSome ∧ (db.ocr (volume_id, pr.1)).isSome)
    (hnd : (declaredNames volume.pages).Nodup)
    (hmeta : METADATA_FILE ∉ declaredNames volume.pages)
    (hdir : "_ocr/" ∉ declaredNames volume.pages)
    (hcover : ∃ c, volume.coverName = some c ∧ c ∈ volume.pages.map Prod.fst)
    (hfresh : ∀ name, target.pages (target.next_id, name) = none ∧
      target.ocr (target.next_id, name) = none) :
    ∃ archive db2 v2 c coverD,
      create_ziparchive db volume_id =
        some (volume.title ++ ".mbz.zip", archive) ∧
      extract_ziparchive target settings archive =
        (db2, Except.ok (v2, c, coverD)) ∧
      v2 = { volume with
        id := target.next_id,
        magnifier := settings.magnifier } ∧
      v2.title = volume.title ∧
      v2.pages = volume.pages ∧
      db2.volumes target.next_id = some v2 ∧
      (∀ pr ∈ volume.pages,
        db2.ocr (target.next_id, pr.1) = db.ocr (volume_id, pr.1) ∧
        (db2.pages (target.next_id, pr.1)).map PageImage.data
          = (db.pages (volume_id, pr.1)).map PageImage.data) := by
  obtain ⟨c, hc, hcmem⟩ := hcover
  obtain ⟨es, hes, hlook⟩ := exportPages_spec db volume_id volume.pages hpres hnd
  refine ⟨(METADATA_FILE, ZipEntry.metadata { volume with id := 0 })
      :: ("_ocr/", ZipEntry.directory) :: es, ?_⟩
  have hskip : ∀ n, n ∈ declaredNames volume.pages →
      zfind ((METADATA_FILE, ZipEntry.metadata { volume with id := 0 })
        :: ("_ocr/", ZipEntry.directory) :: es) n = zfind es n := by
    intro n hn
    have h1 : METADATA_FILE ≠ n := fun h => hmeta (h ▸ hn)
    have h2 : "_ocr/" ≠ n := fun h => hdir (h ▸ hn)
    simp [zfind, h1, h2]
  have hlook2 : ∀ pr ∈ volume.pages,
      (∃ img, db.pages (volume_id, pr.1) = some img ∧
        zfind ((METADATA_FILE, ZipEntry.metadata { volume with id := 0 })
          :: ("_ocr/", ZipEntry.directory) :: es) pr.1
          = some (ZipEntry.image img.data)) ∧
      (∃ ocr, db.ocr (volume_id, pr.1) = some ocr ∧
        zfind ((METADATA_FILE, ZipEntry.metadata { volume with id := 0 })
          :: ("_ocr/", ZipEntry.directory) :: es) pr.2
          = some (ZipEntry.ocrData ocr)) := by
    intro pr hpr
    obtain ⟨⟨img, h1, h2⟩, ⟨ocr, h3, h4⟩⟩ := hlook pr hpr
    exact ⟨⟨img, h1, by
        rw [hskip _ ((mem_declaredNames _ _ hpr).1)]; exact h2⟩,
      ⟨ocr, h3, by
        rw [hskip _ ((mem_declaredNames _ _ hpr).2)]; exact h4⟩⟩
  obtain ⟨data, hdata, hcorr⟩ := importPages_roundtrip _ db volume_id
    volume.pages hlook2
  have hm : zfind ((METADATA_FILE, ZipEntry.metadata { volume with id := 0 })
      :: ("_ocr/", ZipEntry.directory) :: es) METADATA_FILE
      = some (ZipEntry.metadata { volume with id := 0 }) := by
    simp [zfind]
  have hcmv : ({ volume with id := 0 } : VolumeMetadata).coverName = some c := by
    rw [coverName_set_id]; exact hc
  obtain ⟨prc, hprc, hprc1⟩ := List.mem_map.mp hcmem
  obtain ⟨⟨imgc, hic, hfc⟩, -⟩ := hlook2 prc hprc
  have hcfind : zfind ((METADATA_FILE,
      ZipEntry.metadata { volume with id := 0 })
      :: ("_ocr/", ZipEntry.directory) :: es) c
      = some (ZipEntry.image imgc.data) := by
    rw [← hprc1]; exact hfc
  have hread := readPhase_ok settings _ { volume with id := 0 } c imgc.data
    data hm hcmv hcfind hdata
  have hnames : data.map (fun t => t.1) = volume.pages.map Prod.fst :=
    forall₂_map_eq Prod.fst (fun t => t.1) (fun a b hab => hab.1) hcorr
  have hnd2 : (data.map (fun t => t.1)).Nodup := by
    rw [hnames]; exact declaredNames_nodup_map_fst volume.pages hnd
  obtain ⟨db3, hins, hnext, hvols, hrows, hpre⟩ :=
    insertRows_spec target.next_id data
      { target with
        next_id := target.next_id + 1,
        volumes := fun k => if k = target.next_id then some { ({ ({ volume with id := 0 } : VolumeMetadata) with id := 0, magnifier := settings.magnifier } : VolumeMetadata) with id := target.next_id } else target.volumes k }
      (fun t _ => hfresh t.1) hnd2
  have hwrite : importWritePhase target
      ({ ({ volume with id := 0 } : VolumeMetadata) with id := 0, magnifier := settings.magnifier }) data
      = Except.ok (db3, { ({ ({ volume with id := 0 } : VolumeMetadata) with id := 0, magnifier := settings.magnifier } : VolumeMetadata) with id := target.next_id }) := by
    rw [importWritePhase_eq, hins]
  have hextract : extract_ziparchive target settings
      ((METADATA_FILE, ZipEntry.metadata { volume with id := 0 })
        :: ("_ocr/", ZipEntry.directory) :: es) =
      (db3, Except.ok ({ ({ ({ volume with id := 0 } : VolumeMetadata) with id := 0, magnifier := settings.magnifier } : VolumeMetadata) with id := target.next_id }, c, imgc.data)) := by
    unfold extract_ziparchive
    rw [hread]
    dsimp only
    rw [hwrite]
  refine ⟨db3, { ({ ({ volume with id := 0 } : VolumeMetadata) with id := 0, magnifier := settings.magnifier } : VolumeMetadata) with id := target.next_id }, c, imgc.data, ?_, hextract, rfl, rfl, rfl, ?_, ?_⟩
  · simp [create_ziparchive, hvol, hes]
  · rw [hvols]
    show (if target.next_id = target.next_id then _ else _) = _
    rw [if_pos rfl]
  · intro pr hpr
    obtain ⟨t, ht, hrel⟩ := forall₂_exists_left hcorr pr hpr
    obtain ⟨hr1, _, hr3, hr4⟩ := hrel
    obtain ⟨hq1, hq2⟩ := hrows t ht
    rw [hr1] at hq1 hq2
    constructor
    · rw [hq2, hr4]
    · rw [hq1]
      simp only [Option.map_some']
      exact hr3.symm

/-- Counterexample to C1 as stated: for a stored volume whose per-volume
magnifier settings differ from the global Settings, the round trip yields
a volume with the same store-assigned id but different magnifier settings
- so more than the store-assigned id differs (import reassigns the
magnifier from the global Settings, src/utils/zip.rs line 43). -/
theorem C1_roundtrip_counterexample :
    roundtripVolume cexDb 1 emptyDb defaultSettings =
      some { cexVol with magnifier := MagnifierSettings.default } ∧
    ({ cexVol with magnifier := MagnifierSettings.default } :
      VolumeMetadata).id = cexVol.id ∧
    ({ cexVol with magnifier := MagnifierSettings.default } :
      VolumeMetadata) ≠ cexVol := by
  refine ⟨by decide, rfl, by decide⟩

/-- Witness for the amended C1 at the concrete one page volume. -/
theorem C1_roundtrip_amended_witness :
    ∃ archive db2 v2 c coverD,
      create_ziparchive wdb 1 = some (wvol1.title ++ ".mbz.zip", archive) ∧
      extract_ziparchive emptyDb defaultSettings archive =
        (db2, Except.ok (v2, c, coverD)) ∧
      v2 = { wvol1 with
        id := emptyDb.next_id,
        magnifier := defaultSettings.magnifier } ∧
      v2.title = wvol1.title ∧
      v2.pages = wvol1.pages ∧
      db2.volumes emptyDb.next_id = some v2 ∧
      (∀ pr ∈ wvol1.pages,
        db2.ocr (emptyDb.next_id, pr.1) = wdb.ocr (1, pr.1) ∧
        (db2.pages (emptyDb.next_id, pr.1)).map PageImage.data
          = (wdb.pages (1, pr.1)).map PageImage.data) :=
  C1_roundtrip_amended wdb emptyDb 1 wvol1 defaultSettings rfl
    (by decide) (by decide) (by decide) (by decide)
    ⟨"p1.png", rfl, by decide⟩ (fun _ => ⟨rfl, rfl⟩)

end Mokuro
